import Mathlib

/-!
# Timer_D0 capture demo (`src/main.c`): shallow embedding

The capture state of `main.c` (lines 11-16) is embedded as a record of natural
numbers; every `uint16_t` update is written with an explicit `% 65536`.  The two
interrupt handlers (lines 143-195) become pure functions on that record which
take the values of the hardware registers they read as arguments.

`main` and `SetVcoreUp` (lines 20-140 and 197-220) only access memory-mapped
registers; they become functions that extend a trace of register accesses, the
values of register reads being supplied by a simulated hardware model and the
busy-waits being bounded by a fuel argument.

The device header `msp430.h` is not in the repository, so the constants it
provides are gathered in the structure `Hdr` and every definition takes the
header as a parameter.
-/

namespace Msp430Time

/-! ## Header constants -/

/-- The constants of `msp430.h` that `main.c` uses.  The header is outside the
repository, hence a parameter of the embedding. `MC_3` (the mask of the two
mode bits of `TD0CTL0`) is the only constant not named in `main.c`; it is used
only to decode the counting mode written by `main`. -/
structure Hdr where
  CCI : Nat
  TD0IV_TD0IFG : Nat
  WDTPW : Nat
  WDTHOLD : Nat
  SMCLKREQEN : Nat
  FLLREFDIV0 : Nat
  SELREF2 : Nat
  SELA__REFOCLK : Nat
  SELM__DCOCLKDIV : Nat
  SELS__DCOCLKDIV : Nat
  SCG0 : Nat
  GIE : Nat
  DISMOD_L : Nat
  DCORSEL_6 : Nat
  FLLD_0 : Nat
  BIT6 : Nat
  BIT7 : Nat
  TDSSEL_2 : Nat
  CNTL_0 : Nat
  ID_0 : Nat
  MC_0 : Nat
  MC_2 : Nat
  MC_3 : Nat
  TDIE : Nat
  TDCLR : Nat
  TDCLKM_1 : Nat
  TDCAPM0 : Nat
  TDCAPM1 : Nat
  TDHFW : Nat
  TDHD_0 : Nat
  TDHM_1 : Nat
  TDHREGEN : Nat
  TDHEAEN : Nat
  TDHEN : Nat
  TDHCLKCR : Nat
  OUTMOD_7 : Nat
  PMMPW_H : Nat
  SVSHE : Nat
  SVSHRVL0 : Nat
  SVMHE : Nat
  SVSMHRRL0 : Nat
  SVSLE : Nat
  SVMLE : Nat
  SVSMLRRL0 : Nat
  SVSLRVL0 : Nat
  SVSMLDLYIFG : Nat
  SVMLVLRIFG : Nat
  SVMLIFG : Nat
  PMMCOREV0 : Nat

/-- One concrete header, with bit values in the style of the MSP430F51x2 device
header.  It is used only to instantiate the header parameter at concrete
inputs; no theorem depends on these particular values. -/
def f5172 : Hdr where
  CCI := 0x0008
  TD0IV_TD0IFG := 0x0010
  WDTPW := 0x5A00
  WDTHOLD := 0x0080
  SMCLKREQEN := 0x0004
  FLLREFDIV0 := 0x0001
  SELREF2 := 0x0040
  SELA__REFOCLK := 0x0200
  SELM__DCOCLKDIV := 0x0004
  SELS__DCOCLKDIV := 0x0040
  SCG0 := 0x0040
  GIE := 0x0008
  DISMOD_L := 0x0001
  DCORSEL_6 := 0x0060
  FLLD_0 := 0x0000
  BIT6 := 0x0040
  BIT7 := 0x0080
  TDSSEL_2 := 0x0200
  CNTL_0 := 0x0000
  ID_0 := 0x0000
  MC_0 := 0x0000
  MC_2 := 0x0020
  MC_3 := 0x0030
  TDIE := 0x0002
  TDCLR := 0x0004
  TDCLKM_1 := 0x0001
  TDCAPM0 := 0x0001
  TDCAPM1 := 0x0002
  TDHFW := 0x0400
  TDHD_0 := 0x0000
  TDHM_1 := 0x0040
  TDHREGEN := 0x0002
  TDHEAEN := 0x0010
  TDHEN := 0x0001
  TDHCLKCR := 0x0100
  OUTMOD_7 := 0x00E0
  PMMPW_H := 0xA5
  SVSHE := 0x0400
  SVSHRVL0 := 0x0100
  SVMHE := 0x4000
  SVSMHRRL0 := 0x0001
  SVSLE := 0x0400
  SVMLE := 0x4000
  SVSMLRRL0 := 0x0001
  SVSLRVL0 := 0x0100
  SVSMLDLYIFG := 0x0001
  SVMLVLRIFG := 0x0004
  SVMLIFG := 0x0002
  PMMCOREV0 := 0x0001

/-! ## Capture state (main.c lines 11-16) -/

/-- Capacity of each capture buffer: `#define CAP_BUF_SIZE 32` (line 11). -/
def CAP_BUF_SIZE : Nat := 32

/-- A capture buffer `uint16_t buf[3][CAP_BUF_SIZE]`, read as `buf row col`.
Cells are addressed by natural numbers; the cells of the declared array are
those with `row < 3` and `col < CAP_BUF_SIZE`. -/
abbrev Buf := Nat → Nat → Nat

/-- The assignment `buf[r][c] = v`. -/
def Buf.store (b : Buf) (r c v : Nat) : Buf :=
  fun r' c' => if r' = r ∧ c' = c then v else b r' c'

/-- The file-scope variables of lines 12-16. -/
structure State where
  td0_overflow_cnt : Nat
  td0_cap_ch0_index : Nat
  td0_cap_ch0 : Buf
  td0_cap_ch1_index : Nat
  td0_cap_ch1 : Buf

/-- The state at program start: the counters are initialised to 0 (lines 12,
13, 15) and the static arrays are zero-initialised. -/
def zero_state : State where
  td0_overflow_cnt := 0
  td0_cap_ch0_index := 0
  td0_cap_ch0 := fun _ _ => 0
  td0_cap_ch1_index := 0
  td0_cap_ch1 := fun _ _ => 0

/-! ## Channel 0 handler (lines 143-164), statement by statement -/

/-- Line 151: `td0_cap_ch0[0][td0_cap_ch0_index] = TD0CCTL0 & CCI;` -/
def ch0_store_level (h : Hdr) (s : State) (TD0CCTL0 : Nat) : State :=
  { s with td0_cap_ch0 := s.td0_cap_ch0.store 0 s.td0_cap_ch0_index (TD0CCTL0 &&& h.CCI) }

/-- Line 154: `td0_cap_ch0[1][td0_cap_ch0_index] = td0_overflow_cnt;` -/
def ch0_store_epoch (s : State) : State :=
  { s with td0_cap_ch0 := s.td0_cap_ch0.store 1 s.td0_cap_ch0_index s.td0_overflow_cnt }

/-- Line 157: `td0_cap_ch0[2][td0_cap_ch0_index] = TD0CCR0;` -/
def ch0_store_time (s : State) (TD0CCR0 : Nat) : State :=
  { s with td0_cap_ch0 := s.td0_cap_ch0.store 2 s.td0_cap_ch0_index TD0CCR0 }

/-- Lines 159-160: `if(++td0_cap_ch0_index == CAP_BUF_SIZE) td0_cap_ch0_index = 0;`
with the buffer capacity as the parameter `cap`. -/
def ch0_advance (cap : Nat) (s : State) : State :=
  let i := (s.td0_cap_ch0_index + 1) % 65536
  { s with td0_cap_ch0_index := if i = cap then 0 else i }

/-- The handler `timer_D0_channel0_hdlr` (lines 144-164) for a buffer capacity
`cap`; `TD0CCTL0` and `TD0CCR0` are the values of the two registers it reads. -/
def timer_D0_channel0_hdlr_cap (h : Hdr) (cap : Nat) (s : State)
    (TD0CCTL0 TD0CCR0 : Nat) : State :=
  ch0_advance cap (ch0_store_time (ch0_store_epoch (ch0_store_level h s TD0CCTL0)) TD0CCR0)

/-- The handler `timer_D0_channel0_hdlr` as compiled, `CAP_BUF_SIZE = 32`. -/
def timer_D0_channel0_hdlr (h : Hdr) (s : State) (TD0CCTL0 TD0CCR0 : Nat) : State :=
  timer_D0_channel0_hdlr_cap h CAP_BUF_SIZE s TD0CCTL0 TD0CCR0

/-! ## Shared-vector handler (lines 166-195) -/

/-- Line 176: `td0_overflow_cnt++;` on a `uint16_t`. -/
def overflow_inc (s : State) : State :=
  { s with td0_overflow_cnt := (s.td0_overflow_cnt + 1) % 65536 }

/-- Lines 181-190: the capture branch of `timer_D0_channel1_hdlr`. -/
def ch1_capture (h : Hdr) (cap : Nat) (s : State) (TD0CCTL1 TD0CCR1 : Nat) : State :=
  let s1 := { s with td0_cap_ch1 :=
    s.td0_cap_ch1.store 0 s.td0_cap_ch1_index (TD0CCTL1 &&& h.CCI) }
  let s2 := { s1 with td0_cap_ch1 :=
    s1.td0_cap_ch1.store 1 s1.td0_cap_ch1_index s1.td0_overflow_cnt }
  let s3 := { s2 with td0_cap_ch1 :=
    s2.td0_cap_ch1.store 2 s2.td0_cap_ch1_index TD0CCR1 }
  let i := (s3.td0_cap_ch1_index + 1) % 65536
  { s3 with td0_cap_ch1_index := if i = cap then 0 else i }

/-- The handler `timer_D0_channel1_hdlr` (lines 168-195) for a buffer capacity
`cap`; `TD0IV`, `TD0CCTL1`, `TD0CCR1` are the values of the registers it reads
(the last two are read only in the capture branch). -/
def timer_D0_channel1_hdlr_cap (h : Hdr) (cap : Nat) (s : State)
    (TD0IV TD0CCTL1 TD0CCR1 : Nat) : State :=
  let tdiv := TD0IV
  if tdiv = h.TD0IV_TD0IFG then overflow_inc s
  else ch1_capture h cap s TD0CCTL1 TD0CCR1

/-- The handler `timer_D0_channel1_hdlr` as compiled, `CAP_BUF_SIZE = 32`. -/
def timer_D0_channel1_hdlr (h : Hdr) (s : State) (TD0IV TD0CCTL1 TD0CCR1 : Nat) : State :=
  timer_D0_channel1_hdlr_cap h CAP_BUF_SIZE s TD0IV TD0CCTL1 TD0CCR1

/-! ## Interrupt events and runs -/

/-- One interrupt: an invocation of one of the two vectors, together with the
register values the handler reads. -/
inductive Event where
  | vec0 (TD0CCTL0 TD0CCR0 : Nat)
  | vec1 (TD0IV TD0CCTL1 TD0CCR1 : Nat)
  deriving DecidableEq, Repr

/-- A rollover event: the shared vector fires with `TD0IV = TD0IV_TD0IFG`. -/
def Event.isRollover (h : Hdr) : Event → Bool
  | .vec0 _ _ => false
  | .vec1 tdiv _ _ => decide (tdiv = h.TD0IV_TD0IFG)

/-- A channel-0 capture event: the `TIMER0_D0` vector fires. -/
def Event.isCap0 : Event → Bool
  | .vec0 _ _ => true
  | .vec1 _ _ _ => false

/-- A channel-1 capture event: the shared vector fires with any other `TD0IV`. -/
def Event.isCap1 (h : Hdr) : Event → Bool
  | .vec0 _ _ => false
  | .vec1 tdiv _ _ => !decide (tdiv = h.TD0IV_TD0IFG)

/-- Run the handler of one event to completion. -/
def step (h : Hdr) (cap : Nat) (s : State) : Event → State
  | .vec0 cctl ccr => timer_D0_channel0_hdlr_cap h cap s cctl ccr
  | .vec1 tdiv cctl ccr => timer_D0_channel1_hdlr_cap h cap s tdiv cctl ccr

/-- Run the handlers of a sequence of events, one after the other. -/
def run (h : Hdr) (cap : Nat) (s : State) (evs : List Event) : State :=
  evs.foldl (step h cap) s

/-- The states reachable from the zero-initialised state. -/
def Reachable (h : Hdr) (cap : Nat) (s : State) : Prop :=
  ∃ evs, s = run h cap zero_state evs

/-- The slot (column) `j` of a buffer: the cells of rows 0, 1, 2. -/
def slot (b : Buf) (j : Nat) : Nat × Nat × Nat := (b 0 j, b 1 j, b 2 j)

/-- The record written by handling event `e` in state `s` on channel 0: the
slot of the new buffer at the column the cursor pointed to. -/
def recorded0 (h : Hdr) (cap : Nat) (s : State) (e : Event) : Nat × Nat × Nat :=
  slot (step h cap s e).td0_cap_ch0 s.td0_cap_ch0_index

/-- The record written by handling event `e` in state `s` on channel 1. -/
def recorded1 (h : Hdr) (cap : Nat) (s : State) (e : Event) : Nat × Nat × Nat :=
  slot (step h cap s e).td0_cap_ch1 s.td0_cap_ch1_index

/-- The records written on channel 0 by the channel-0 capture events of a run,
in event order. -/
def records0 (h : Hdr) (cap : Nat) : State → List Event → List (Nat × Nat × Nat)
  | _, [] => []
  | s, e :: es =>
    if e.isCap0 then recorded0 h cap s e :: records0 h cap (step h cap s e) es
    else records0 h cap (step h cap s e) es

/-- The records written on channel 1 by the channel-1 capture events of a run,
in event order. -/
def records1 (h : Hdr) (cap : Nat) : State → List Event → List (Nat × Nat × Nat)
  | _, [] => []
  | s, e :: es =>
    if e.isCap1 h then recorded1 h cap s e :: records1 h cap (step h cap s e) es
    else records1 h cap (step h cap s e) es

/-- The input level of a record as a bit: 1 when the masked capture-control
value is non-zero, 0 otherwise. -/
def level_bit (r : Nat × Nat × Nat) : Nat := if r.1 = 0 then 0 else 1

/-- The epoch of a record. -/
def epoch (r : Nat × Nat × Nat) : Nat := r.2.1

/-! ## Interleaving a rollover with a channel-0 capture -/

/-- The four statements of the channel-0 handler (lines 151, 154, 157,
159-160), in program order. -/
def ch0_statements (h : Hdr) (cap : Nat) (TD0CCTL0 TD0CCR0 : Nat) : List (State → State) :=
  [fun s => ch0_store_level h s TD0CCTL0, ch0_store_epoch,
   fun s => ch0_store_time s TD0CCR0, ch0_advance cap]

/-- Execute a list of statements in order. -/
def exec_statements (fs : List (State → State)) (s : State) : State :=
  fs.foldl (fun st f => f st) s

/-- A channel-0 capture with one rollover increment (line 176) executed after
the first `p` of its four statements: `p = 0` is the rollover entirely before
the capture, `p = 4` entirely after it, `p = 1, 2, 3` between two statements. -/
def ch0_capture_rollover_at (h : Hdr) (cap : Nat) (p : Nat) (s : State)
    (TD0CCTL0 TD0CCR0 : Nat) : State :=
  exec_statements
    ((ch0_statements h cap TD0CCTL0 TD0CCR0).take p ++ [overflow_inc] ++
      (ch0_statements h cap TD0CCTL0 TD0CCR0).drop p) s

/-! ## The sliding-window reading of a buffer -/

/-- Buffer `buf` of capacity `cap` is the sliding window of the records `recs`
(numbered from 0 in event order): a slot `j` to which some record index is
congruent modulo `cap` holds the record of the largest such index, and every
other slot is still zero. -/
def SlidingWindow (cap : Nat) (recs : List (Nat × Nat × Nat)) (buf : Buf) : Prop :=
  ∀ j, j < cap →
    (∀ i, i < recs.length → i % cap = j →
      (∀ i', i < i' → i' < recs.length → i' % cap ≠ j) → recs[i]? = some (slot buf j)) ∧
    ((∀ i, i < recs.length → i % cap ≠ j) → slot buf j = (0, 0, 0))

/-! ## Register accesses of `main` and `SetVcoreUp` (lines 20-140, 197-220)

`main` and `SetVcoreUp` only talk to memory-mapped registers.  They are embedded
as functions that extend a trace of register accesses; the value returned by a
register read is supplied by a hardware model, a function of the accesses made
so far.  Expression values are 16-bit (`unsigned int` on this target). -/

/-- The registers accessed by `main` and `SetVcoreUp`. -/
inductive Reg where
  | WDTCTL | PMMCTL0_H | PMMCTL0_L | SVSMHCTL | SVSMLCTL | PMMIFG
  | UCSCTL0 | UCSCTL1 | UCSCTL2 | UCSCTL3 | UCSCTL4 | UCSCTL8
  | P1SEL | P1DIR | P1REN | P1OUT
  | TD0CTL0 | TD0CTL1 | TD0CTL2 | TD0HCTL0 | TD0HCTL1 | TD0CCTL0 | TD0CCTL1
  deriving DecidableEq, Repr

/-- One access made by the program: a register read with the value obtained, a
register write with the value stored, the intrinsics `__bis_SR_register` and
`__bic_SR_register` with their operand, and `__delay_cycles`. -/
inductive Access where
  | read (r : Reg) (v : Nat)
  | write (r : Reg) (v : Nat)
  | bis_SR (v : Nat)
  | bic_SR (v : Nat)
  | delay_cycles (n : Nat)
  deriving DecidableEq, Repr

/-- The accesses made so far, oldest first. -/
abbrev Trace := List Access

/-- A simulated hardware model: the value a register read returns, given the
accesses made so far. -/
abbrev Hardware := Trace → Reg → Nat

/-- The 16-bit complement `~x`. -/
def bnot16 (x : Nat) : Nat := 65535 - x % 65536

/-- The value obtained by reading register `r` after the accesses `t`. -/
def reg_read (hw : Hardware) (r : Reg) (t : Trace) : Nat := hw t r % 65536

/-- The statement `r = v;`. -/
def reg_write (r : Reg) (v : Nat) (t : Trace) : Trace := t ++ [.write r v]

/-- The statement `r |= x;`: one read and one write. -/
def reg_or (hw : Hardware) (r : Reg) (x : Nat) (t : Trace) : Trace :=
  t ++ [.read r (reg_read hw r t), .write r ((reg_read hw r t ||| x) % 65536)]

/-- The statement `r &= x;`: one read and one write. -/
def reg_and (hw : Hardware) (r : Reg) (x : Nat) (t : Trace) : Trace :=
  t ++ [.read r (reg_read hw r t), .write r ((reg_read hw r t &&& x) % 65536)]

/-- The statement `r ^= x;`: one read and one write. -/
def reg_xor (hw : Hardware) (r : Reg) (x : Nat) (t : Trace) : Trace :=
  t ++ [.read r (reg_read hw r t), .write r ((reg_read hw r t ^^^ x) % 65536)]

/-- A busy-wait `while ((PMMIFG & mask) == 0);` (lines 210 and 214): every
iteration reads `PMMIFG` once; `none` when the flag was not seen within `fuel`
iterations. -/
def poll (hw : Hardware) (mask : Nat) : Nat → Trace → Option Trace
  | 0, _ => none
  | fuel + 1, t =>
    if reg_read hw .PMMIFG t &&& mask = 0 then
      poll hw mask fuel (t ++ [.read .PMMIFG (reg_read hw .PMMIFG t)])
    else some (t ++ [.read .PMMIFG (reg_read hw .PMMIFG t)])

/-- Lines 213-214: `if ((PMMIFG & SVMLIFG)) while ((PMMIFG & SVMLVLRIFG) == 0);` -/
def wait_level_reached (h : Hdr) (hw : Hardware) (fuel : Nat) (t : Trace) : Option Trace :=
  if reg_read hw .PMMIFG t &&& h.SVMLIFG ≠ 0 then
    poll hw h.SVMLVLRIFG fuel (t ++ [.read .PMMIFG (reg_read hw .PMMIFG t)])
  else some (t ++ [.read .PMMIFG (reg_read hw .PMMIFG t)])

/-- The function `SetVcoreUp` (lines 197-220): the accesses it appends to the
trace `t`, or `none` when one of its busy-waits runs out of `fuel`. -/
def SetVcoreUp (h : Hdr) (hw : Hardware) (level : Nat) (fuel : Nat) (t : Trace) :
    Option Trace := do
  let t := reg_write .PMMCTL0_H h.PMMPW_H t
  let t := reg_write .SVSMHCTL
    ((h.SVSHE + h.SVSHRVL0 * level + h.SVMHE + h.SVSMHRRL0 * level) % 65536) t
  let t := reg_write .SVSMLCTL ((h.SVSLE + h.SVMLE + h.SVSMLRRL0 * level) % 65536) t
  let t ← poll hw h.SVSMLDLYIFG fuel t
  let t := reg_and hw .PMMIFG (bnot16 (h.SVMLVLRIFG + h.SVMLIFG)) t
  let t := reg_write .PMMCTL0_L ((h.PMMCOREV0 * level) % 65536) t
  let t ← wait_level_reached h hw fuel t
  let t := reg_write .SVSMLCTL
    ((h.SVSLE + h.SVSLRVL0 * level + h.SVMLE + h.SVSMLRRL0 * level) % 65536) t
  let t := reg_write .PMMCTL0_H 0x00 t
  pure t

/-- Lines 30-52 of `main`: the settling delay and the UCS clock configuration. -/
def main_clock (h : Hdr) (hw : Hardware) (t : Trace) : Trace :=
  let t := t ++ [.delay_cycles 800000]
  let t := reg_and hw .UCSCTL8 (bnot16 h.SMCLKREQEN) t
  let t := reg_write .UCSCTL3 ((0 * h.FLLREFDIV0 + h.SELREF2) % 65536) t
  let t := reg_write .UCSCTL4
    ((h.SELA__REFOCLK + h.SELM__DCOCLKDIV + h.SELS__DCOCLKDIV) % 65536) t
  let t := t ++ [.bis_SR h.SCG0]
  let t := reg_write .UCSCTL0 0x0000 t
  let t := reg_write .UCSCTL1 ((h.DISMOD_L + h.DCORSEL_6) % 65536) t
  let t := reg_write .UCSCTL2 ((h.FLLD_0 + 487) % 65536) t
  let t := t ++ [.bic_SR h.SCG0]
  t ++ [.delay_cycles 500000]

/-- Lines 69-82 of `main`: the two capture input pins. -/
def main_pins (h : Hdr) (hw : Hardware) (t : Trace) : Trace :=
  let t := reg_or hw .P1SEL h.BIT6 t
  let t := reg_and hw .P1DIR (bnot16 h.BIT6) t
  let t := reg_or hw .P1REN h.BIT6 t
  let t := reg_and hw .P1OUT (bnot16 h.BIT6) t
  let t := reg_or hw .P1SEL h.BIT7 t
  let t := reg_and hw .P1DIR (bnot16 h.BIT7) t
  let t := reg_or hw .P1REN h.BIT7 t
  reg_and hw .P1OUT (bnot16 h.BIT7) t

/-- Lines 85-115 of `main`: the Timer_D configuration with the counter halted. -/
def main_timer_config (h : Hdr) (hw : Hardware) (t : Trace) : Trace :=
  let t := reg_write .TD0CTL0
    ((h.TDSSEL_2 + h.CNTL_0 + h.ID_0 + h.MC_0 + h.TDIE) % 65536) t
  let t := reg_or hw .TD0CTL1 h.TDCLKM_1 t
  let t := reg_write .TD0CTL2 ((0 * h.TDCAPM0 + 0 * h.TDCAPM1) % 65536) t
  let t := reg_write .TD0HCTL0
    ((h.TDHFW + h.TDHD_0 + h.TDHM_1 + h.TDHREGEN + h.TDHEAEN + h.TDHEN) % 65536) t
  let t := reg_or hw .TD0HCTL1 h.TDHCLKCR t
  let t := reg_write .TD0CCTL0
    ((0 * 0x1000 + 0x8000 + h.OUTMOD_7 + 0x0100 + 0x0010) % 65536) t
  reg_write .TD0CCTL1 ((0 * 0x1000 + 0x8000 + h.OUTMOD_7 + 0x0100 + 0x0010) % 65536) t

/-- Lines 117-118 of `main`: `TD0CTL0 |= TDCLR + MC_2;` followed by
`__bis_SR_register(GIE);`. -/
def main_start (h : Hdr) (hw : Hardware) (t : Trace) : Trace :=
  let t := reg_or hw .TD0CTL0 (h.TDCLR + h.MC_2) t
  t ++ [.bis_SR h.GIE]

/-- Lines 133-137 of `main`: `n` rounds of the endless LED loop. -/
def main_led_loop (hw : Hardware) : Nat → Trace → Trace
  | 0, t => t
  | n + 1, t =>
    main_led_loop hw n (reg_xor hw .P1OUT 0x01 t ++ [.delay_cycles (2 * 1000000)])

/-- The function `main` (lines 20-140), observed until `rounds` rounds of its
endless LED loop have run: the trace of its register accesses, or `none` when
a busy-wait of `SetVcoreUp` runs out of `fuel`. -/
def main (h : Hdr) (hw : Hardware) (fuel rounds : Nat) : Option Trace := do
  let t := reg_write .WDTCTL ((h.WDTPW ||| h.WDTHOLD) % 65536) []
  let t ← SetVcoreUp h hw 0x01 fuel t
  let t ← SetVcoreUp h hw 0x02 fuel t
  let t ← SetVcoreUp h hw 0x03 fuel t
  let t := main_clock h hw t
  let t := main_pins h hw t
  let t := main_timer_config h hw t
  let t := main_start h hw t
  let t := reg_or hw .P1DIR 0x01 t
  pure (main_led_loop hw rounds t)

/-- A simple simulated hardware: every flag of `PMMIFG` reads as set, and any
other register reads back the value last written to it (0 before any write). -/
def hw_ready : Hardware := fun t r =>
  if r = .PMMIFG then 0xFFFF
  else (t.reverse.findSome? (fun a => match a with
    | .write r' v => if r' = r then some v else none
    | _ => none)).getD 0

/-! ## Observations on traces -/

/-- The values written to the core-voltage selector `PMMCTL0_L`, in order. -/
def core_writes (t : Trace) : List Nat :=
  t.filterMap (fun a => match a with
    | .write .PMMCTL0_L v => some v
    | _ => none)

/-- Whether the global interrupt enable bit is set after the accesses `t`; it
is clear at reset and changed only by the two status-register intrinsics. -/
def gie_enabled (h : Hdr) (t : Trace) : Bool :=
  t.foldl (fun g a => match a with
    | .bis_SR v => if v &&& h.GIE ≠ 0 then true else g
    | .bic_SR v => if v &&& h.GIE ≠ 0 then false else g
    | _ => g) false

/-- Whether the Timer_D0 counter is in a running mode after the accesses `t`:
the mode field of the value last written to `TD0CTL0` is not `MC_0` (stop); the
counter is halted at reset. -/
def counter_running (h : Hdr) (t : Trace) : Bool :=
  t.foldl (fun c a => match a with
    | .write .TD0CTL0 v => decide (v &&& h.MC_3 ≠ h.MC_0)
    | _ => c) false

/-- A write to one of the Timer_D0 registers. -/
def Access.isTimerWrite : Access → Bool
  | .write .TD0CTL0 _ => true
  | .write .TD0CTL1 _ => true
  | .write .TD0CTL2 _ => true
  | .write .TD0HCTL0 _ => true
  | .write .TD0HCTL1 _ => true
  | .write .TD0CCTL0 _ => true
  | .write .TD0CCTL1 _ => true
  | _ => false

/-- A status-register intrinsic. -/
def Access.isStatusOp : Access → Bool
  | .bis_SR _ => true
  | .bic_SR _ => true
  | _ => false

/-- The timer configuration as a sequence: the writes to Timer_D0 registers and
the status-register intrinsics of a trace, in order. -/
def timeline (t : Trace) : Trace :=
  t.filter (fun a => a.isTimerWrite || a.isStatusOp)

/-- The accesses `seg` of one `SetVcoreUp` call for `level`: the call issues
exactly one core-voltage write, of `PMMCOREV0 * level`, and the last `PMMIFG`
read of its settle wait (line 210), which precedes that write, had
`SVSMLDLYIFG` set. -/
def SettledCoreWrite (h : Hdr) (level : Nat) (seg : Trace) : Prop :=
  ∃ (before after : Trace) (v w : Nat),
    seg = before ++ [.read .PMMIFG v, .read .PMMIFG w,
      .write .PMMIFG ((w &&& bnot16 (h.SVMLVLRIFG + h.SVMLIFG)) % 65536),
      .write .PMMCTL0_L ((h.PMMCOREV0 * level) % 65536)] ++ after ∧
    v &&& h.SVSMLDLYIFG ≠ 0 ∧ core_writes before = [] ∧ core_writes after = []

/-- The busy-waits of the `SetVcoreUp` call for `level`, entered after the
accesses `t`, terminate and the call ends with the trace `t'`: the wait of
line 210 started after the three writes of lines 202-209 ends within some
number `f1` of iterations, and so does, within `f2` iterations, the conditional
wait of lines 213-214 started after the writes of lines 211-212. -/
def CallPollsTerminate (h : Hdr) (hw : Hardware) (level : Nat) (t t' : Trace) : Prop :=
  ∃ (f1 f2 : Nat) (t1 t2 : Trace),
    poll hw h.SVSMLDLYIFG f1
      (reg_write .SVSMLCTL ((h.SVSLE + h.SVMLE + h.SVSMLRRL0 * level) % 65536)
        (reg_write .SVSMHCTL
          ((h.SVSHE + h.SVSHRVL0 * level + h.SVMHE + h.SVSMHRRL0 * level) % 65536)
          (reg_write .PMMCTL0_H h.PMMPW_H t))) = some t1 ∧
    wait_level_reached h hw f2
      (reg_write .PMMCTL0_L ((h.PMMCOREV0 * level) % 65536)
        (reg_and hw .PMMIFG (bnot16 (h.SVMLVLRIFG + h.SVMLIFG)) t1)) = some t2 ∧
    t' = reg_write .PMMCTL0_H 0x00 (reg_write .SVSMLCTL
      ((h.SVSLE + h.SVSLRVL0 * level + h.SVMLE + h.SVSMLRRL0 * level) % 65536) t2)

/-- The busy-waits that `main` executes terminate on hardware `hw`: those of
its three `SetVcoreUp` calls, each entered at the trace at which `main` enters
it.  Nothing is asked of the hardware at traces `main` does not reach. -/
def PollsTerminate (h : Hdr) (hw : Hardware) : Prop :=
  ∃ t1 t2 t3 : Trace,
    CallPollsTerminate h hw 1 [.write .WDTCTL ((h.WDTPW ||| h.WDTHOLD) % 65536)] t1 ∧
    CallPollsTerminate h hw 2 t1 t2 ∧
    CallPollsTerminate h hw 3 t2 t3

/-- A simulated hardware on which the settle flag takes time and no violation
is ever flagged: `PMMIFG` reads as `SVSMLDLYIFG` alone when the access just
before was itself a `PMMIFG` read and as 0 otherwise; any other register reads
as 0.  The wait of line 210 needs two reads, the wait of line 214 is never
entered, and polling `SVMLVLRIFG` would never succeed. -/
def hw_slow_settle (h : Hdr) : Hardware := fun t r =>
  if r = .PMMIFG then
    match t.getLast? with
    | some (.read .PMMIFG _) => h.SVSMLDLYIFG
    | _ => 0
  else 0

/-! ## Basic facts about the handlers -/

theorem store_same (b : Buf) (r c v : Nat) : b.store r c v r c = v := by
  simp [Buf.store]

theorem store_other (b : Buf) (r c v r' c' : Nat) (hne : ¬ (r' = r ∧ c' = c)) :
    b.store r c v r' c' = b r' c' := by
  simp [Buf.store, hne]

theorem run_nil (h : Hdr) (cap : Nat) (s : State) : run h cap s [] = s := rfl

theorem run_cons (h : Hdr) (cap : Nat) (s : State) (e : Event) (es : List Event) :
    run h cap s (e :: es) = run h cap (step h cap s e) es := rfl

theorem run_append (h : Hdr) (cap : Nat) (s : State) (xs ys : List Event) :
    run h cap s (xs ++ ys) = run h cap (run h cap s xs) ys := by
  simp [run, List.foldl_append]

theorem run_snoc (h : Hdr) (cap : Nat) (s : State) (xs : List Event) (e : Event) :
    run h cap s (xs ++ [e]) = step h cap (run h cap s xs) e := by
  simp [run, List.foldl_append]

/-- The cursor update of lines 159-160 is the successor modulo the capacity,
for an in-range cursor. -/
theorem advance_mod (cap i : Nat) (hcap : cap < 65536) (hi : i < cap) :
    (if (i + 1) % 65536 = cap then 0 else (i + 1) % 65536) = (i + 1) % cap := by
  have h1 : (i + 1) % 65536 = i + 1 := Nat.mod_eq_of_lt (by omega)
  rw [h1]
  by_cases hc : i + 1 = cap
  · rw [if_pos hc, hc, Nat.mod_self]
  · rw [if_neg hc, Nat.mod_eq_of_lt (by omega)]

theorem step_vec0_cnt (h : Hdr) (cap : Nat) (s : State) (a b : Nat) :
    (step h cap s (.vec0 a b)).td0_overflow_cnt = s.td0_overflow_cnt := rfl

theorem step_vec0_idx0 (h : Hdr) (cap : Nat) (s : State) (a b : Nat) :
    (step h cap s (.vec0 a b)).td0_cap_ch0_index =
      if (s.td0_cap_ch0_index + 1) % 65536 = cap then 0
      else (s.td0_cap_ch0_index + 1) % 65536 := rfl

theorem step_vec0_ch0 (h : Hdr) (cap : Nat) (s : State) (a b : Nat) :
    (step h cap s (.vec0 a b)).td0_cap_ch0 =
      (((s.td0_cap_ch0.store 0 s.td0_cap_ch0_index (a &&& h.CCI)).store
        1 s.td0_cap_ch0_index s.td0_overflow_cnt).store 2 s.td0_cap_ch0_index b) := rfl

theorem step_vec0_idx1 (h : Hdr) (cap : Nat) (s : State) (a b : Nat) :
    (step h cap s (.vec0 a b)).td0_cap_ch1_index = s.td0_cap_ch1_index := rfl

theorem step_vec0_ch1 (h : Hdr) (cap : Nat) (s : State) (a b : Nat) :
    (step h cap s (.vec0 a b)).td0_cap_ch1 = s.td0_cap_ch1 := rfl

theorem step_roll (h : Hdr) (cap : Nat) (s : State) (t a b : Nat)
    (ht : t = h.TD0IV_TD0IFG) :
    step h cap s (.vec1 t a b) = overflow_inc s := by
  simp [step, timer_D0_channel1_hdlr_cap, ht]

theorem step_cap1 (h : Hdr) (cap : Nat) (s : State) (t a b : Nat)
    (ht : t ≠ h.TD0IV_TD0IFG) :
    step h cap s (.vec1 t a b) = ch1_capture h cap s a b := by
  simp [step, timer_D0_channel1_hdlr_cap, ht]

theorem cap1_cnt (h : Hdr) (cap : Nat) (s : State) (a b : Nat) :
    (ch1_capture h cap s a b).td0_overflow_cnt = s.td0_overflow_cnt := rfl

theorem cap1_idx1 (h : Hdr) (cap : Nat) (s : State) (a b : Nat) :
    (ch1_capture h cap s a b).td0_cap_ch1_index =
      if (s.td0_cap_ch1_index + 1) % 65536 = cap then 0
      else (s.td0_cap_ch1_index + 1) % 65536 := rfl

theorem cap1_ch1 (h : Hdr) (cap : Nat) (s : State) (a b : Nat) :
    (ch1_capture h cap s a b).td0_cap_ch1 =
      (((s.td0_cap_ch1.store 0 s.td0_cap_ch1_index (a &&& h.CCI)).store
        1 s.td0_cap_ch1_index s.td0_overflow_cnt).store 2 s.td0_cap_ch1_index b) := rfl

theorem cap1_idx0 (h : Hdr) (cap : Nat) (s : State) (a b : Nat) :
    (ch1_capture h cap s a b).td0_cap_ch0_index = s.td0_cap_ch0_index := rfl

theorem cap1_ch0 (h : Hdr) (cap : Nat) (s : State) (a b : Nat) :
    (ch1_capture h cap s a b).td0_cap_ch0 = s.td0_cap_ch0 := rfl

/-- An event that is not a channel-0 capture leaves channel 0 untouched. -/
theorem step_not_cap0 (h : Hdr) (cap : Nat) (s : State) (e : Event)
    (he : e.isCap0 = false) :
    (step h cap s e).td0_cap_ch0_index = s.td0_cap_ch0_index ∧
    (step h cap s e).td0_cap_ch0 = s.td0_cap_ch0 := by
  cases e with
  | vec0 a b => simp [Event.isCap0] at he
  | vec1 t a b =>
    by_cases ht : t = h.TD0IV_TD0IFG
    · rw [step_roll h cap s t a b ht]; exact ⟨rfl, rfl⟩
    · rw [step_cap1 h cap s t a b ht]; exact ⟨rfl, rfl⟩

/-- An event that is not a channel-1 capture leaves channel 1 untouched. -/
theorem step_not_cap1 (h : Hdr) (cap : Nat) (s : State) (e : Event)
    (he : e.isCap1 h = false) :
    (step h cap s e).td0_cap_ch1_index = s.td0_cap_ch1_index ∧
    (step h cap s e).td0_cap_ch1 = s.td0_cap_ch1 := by
  cases e with
  | vec0 a b => exact ⟨rfl, rfl⟩
  | vec1 t a b =>
    have ht : t = h.TD0IV_TD0IFG := by simpa [Event.isCap1] using he
    rw [step_roll h cap s t a b ht]; exact ⟨rfl, rfl⟩

/-- An event that is not a rollover leaves the overflow counter untouched. -/
theorem step_not_roll (h : Hdr) (cap : Nat) (s : State) (e : Event)
    (he : e.isRollover h = false) :
    (step h cap s e).td0_overflow_cnt = s.td0_overflow_cnt := by
  cases e with
  | vec0 a b => rfl
  | vec1 t a b =>
    have ht : t ≠ h.TD0IV_TD0IFG := by simpa [Event.isRollover] using he
    rw [step_cap1 h cap s t a b ht]; rfl

/-- Cursor of channel 0 after a run, in terms of the number of its captures. -/
theorem run_idx0 (h : Hdr) (cap : Nat) (hpos : 0 < cap) (hcap : cap < 65536)
    (evs : List Event) :
    (run h cap zero_state evs).td0_cap_ch0_index = evs.countP Event.isCap0 % cap := by
  induction evs using List.reverseRecOn with
  | nil => simp [run, zero_state]
  | append_singleton xs e ih =>
    rw [run_snoc, List.countP_append]
    cases hc : e.isCap0 with
    | false =>
      rw [(step_not_cap0 h cap _ e hc).1, ih]
      simp [List.countP_cons, hc]
    | true =>
      cases e with
      | vec1 t a b => simp [Event.isCap0] at hc
      | vec0 a b =>
        rw [step_vec0_idx0, ih, advance_mod cap _ hcap (Nat.mod_lt _ hpos)]
        simp [List.countP_cons, Event.isCap0, Nat.add_mod]

/-- Cursor of channel 1 after a run, in terms of the number of its captures. -/
theorem run_idx1 (h : Hdr) (cap : Nat) (hpos : 0 < cap) (hcap : cap < 65536)
    (evs : List Event) :
    (run h cap zero_state evs).td0_cap_ch1_index = evs.countP (Event.isCap1 h) % cap := by
  induction evs using List.reverseRecOn with
  | nil => simp [run, zero_state]
  | append_singleton xs e ih =>
    rw [run_snoc, List.countP_append]
    cases hc : e.isCap1 h with
    | false =>
      rw [(step_not_cap1 h cap _ e hc).1, ih]
      simp [List.countP_cons, hc]
    | true =>
      cases e with
      | vec0 a b => simp [Event.isCap1] at hc
      | vec1 t a b =>
        have ht : t ≠ h.TD0IV_TD0IFG := by simpa [Event.isCap1] using hc
        rw [step_cap1 h cap _ t a b ht, cap1_idx1, ih,
          advance_mod cap _ hcap (Nat.mod_lt _ hpos)]
        simp [List.countP_cons, Event.isCap1, ht, Nat.add_mod]

/-- C1: from the zero-initialised state, after any sequence of rollover and
capture events that contains exactly `N` capture events on a channel, that
channel's write cursor equals `N mod 32`; with the capacity taken as 4 and
`N = 6` the cursor ends at 2. -/
theorem C1_cursor_is_count_mod_capacity (h : Hdr) (N : Nat) (evs : List Event) :
    (evs.countP Event.isCap0 = N →
      (run h CAP_BUF_SIZE zero_state evs).td0_cap_ch0_index = N % 32) ∧
    (evs.countP (Event.isCap1 h) = N →
      (run h CAP_BUF_SIZE zero_state evs).td0_cap_ch1_index = N % 32) ∧
    (evs.countP Event.isCap0 = 6 → (run h 4 zero_state evs).td0_cap_ch0_index = 2) ∧
    (evs.countP (Event.isCap1 h) = 6 → (run h 4 zero_state evs).td0_cap_ch1_index = 2) := by
  refine ⟨?_, ?_, ?_, ?_⟩
  · intro hN; rw [run_idx0 h CAP_BUF_SIZE (by decide) (by decide), hN]; rfl
  · intro hN; rw [run_idx1 h CAP_BUF_SIZE (by decide) (by decide), hN]; rfl
  · intro hN; rw [run_idx0 h 4 (by decide) (by decide), hN]
  · intro hN; rw [run_idx1 h 4 (by decide) (by decide), hN]

/-- Witness of C1 on six channel-0 captures with capacity 4. -/
theorem C1_cursor_is_count_mod_capacity_witness :
    (run f5172 4 zero_state (List.replicate 6 (Event.vec0 8 0))).td0_cap_ch0_index = 2 :=
  (C1_cursor_is_count_mod_capacity f5172 6 (List.replicate 6 (Event.vec0 8 0))).2.2.1
    (by decide)

/-- Both cursors are in range in every state reached from the zero state. -/
theorem run_idx_lt (h : Hdr) (cap : Nat) (hpos : 0 < cap) (hcap : cap < 65536)
    (evs : List Event) :
    (run h cap zero_state evs).td0_cap_ch0_index < cap ∧
    (run h cap zero_state evs).td0_cap_ch1_index < cap := by
  rw [run_idx0 h cap hpos hcap, run_idx1 h cap hpos hcap]
  exact ⟨Nat.mod_lt _ hpos, Nat.mod_lt _ hpos⟩

/-- The cursor update keeps an in-range cursor in range. -/
theorem advance_lt (cap i : Nat) (hcap : cap < 65536) (hi : i < cap) :
    (if (i + 1) % 65536 = cap then 0 else (i + 1) % 65536) < cap := by
  rw [advance_mod cap i hcap hi]
  exact Nat.mod_lt _ (by omega)

/-- One step changes no cell outside the rows 0-2 of the cursor columns. -/
theorem step_cells (h : Hdr) (cap : Nat) (s : State) (e : Event) (r c : Nat) :
    (¬ (r < 3 ∧ c = s.td0_cap_ch0_index) →
      (step h cap s e).td0_cap_ch0 r c = s.td0_cap_ch0 r c) ∧
    (¬ (r < 3 ∧ c = s.td0_cap_ch1_index) →
      (step h cap s e).td0_cap_ch1 r c = s.td0_cap_ch1 r c) := by
  cases e with
  | vec0 a b =>
    refine ⟨fun hn => ?_, fun _ => rfl⟩
    rw [step_vec0_ch0]
    have h0 : ¬ (r = 0 ∧ c = s.td0_cap_ch0_index) := fun hh => hn ⟨by omega, hh.2⟩
    have h1 : ¬ (r = 1 ∧ c = s.td0_cap_ch0_index) := fun hh => hn ⟨by omega, hh.2⟩
    have h2 : ¬ (r = 2 ∧ c = s.td0_cap_ch0_index) := fun hh => hn ⟨by omega, hh.2⟩
    rw [store_other _ _ _ _ _ _ h2, store_other _ _ _ _ _ _ h1, store_other _ _ _ _ _ _ h0]
  | vec1 t a b =>
    by_cases ht : t = h.TD0IV_TD0IFG
    · rw [step_roll h cap s t a b ht]; exact ⟨fun _ => rfl, fun _ => rfl⟩
    · rw [step_cap1 h cap s t a b ht]
      refine ⟨fun _ => rfl, fun hn => ?_⟩
      rw [cap1_ch1]
      have h0 : ¬ (r = 0 ∧ c = s.td0_cap_ch1_index) := fun hh => hn ⟨by omega, hh.2⟩
      have h1 : ¬ (r = 1 ∧ c = s.td0_cap_ch1_index) := fun hh => hn ⟨by omega, hh.2⟩
      have h2 : ¬ (r = 2 ∧ c = s.td0_cap_ch1_index) := fun hh => hn ⟨by omega, hh.2⟩
      rw [store_other _ _ _ _ _ _ h2, store_other _ _ _ _ _ _ h1, store_other _ _ _ _ _ _ h0]

/-- No cell outside the declared `3 x cap` arrays is ever written in a run from
the zero state. -/
theorem run_outside (h : Hdr) (cap : Nat) (hpos : 0 < cap) (hcap : cap < 65536)
    (evs : List Event) (r c : Nat) (hout : ¬ (r < 3 ∧ c < cap)) :
    (run h cap zero_state evs).td0_cap_ch0 r c = 0 ∧
    (run h cap zero_state evs).td0_cap_ch1 r c = 0 := by
  induction evs using List.reverseRecOn with
  | nil => exact ⟨rfl, rfl⟩
  | append_singleton xs e ih =>
    rw [run_snoc]
    have hlt := run_idx_lt h cap hpos hcap xs
    have hc := step_cells h cap (run h cap zero_state xs) e r c
    rw [hc.1 (fun hh => hout ⟨hh.1, by omega⟩), hc.2 (fun hh => hout ⟨hh.1, by omega⟩)]
    exact ih

/-- C3: in every state reachable from the zero-initialised state both write
cursors are below 32; each handler (channel 0, and the shared vector in both of
its branches) keeps in-range cursors in range; and no cell outside the 3 x 32
arrays is ever written, i.e. every buffer write is at an in-bounds column. -/
theorem C3_cursor_range_invariant (h : Hdr) :
    (∀ evs : List Event,
      (run h CAP_BUF_SIZE zero_state evs).td0_cap_ch0_index < 32 ∧
      (run h CAP_BUF_SIZE zero_state evs).td0_cap_ch1_index < 32) ∧
    (∀ (s : State) (a b : Nat), s.td0_cap_ch0_index < 32 → s.td0_cap_ch1_index < 32 →
      (timer_D0_channel0_hdlr h s a b).td0_cap_ch0_index < 32 ∧
      (timer_D0_channel0_hdlr h s a b).td0_cap_ch1_index < 32) ∧
    (∀ (s : State) (t a b : Nat), s.td0_cap_ch0_index < 32 → s.td0_cap_ch1_index < 32 →
      (timer_D0_channel1_hdlr h s t a b).td0_cap_ch0_index < 32 ∧
      (timer_D0_channel1_hdlr h s t a b).td0_cap_ch1_index < 32) ∧
    (∀ (evs : List Event) (e : Event) (r c : Nat), ¬ (r < 3 ∧ c < 32) →
      (step h CAP_BUF_SIZE (run h CAP_BUF_SIZE zero_state evs) e).td0_cap_ch0 r c =
        (run h CAP_BUF_SIZE zero_state evs).td0_cap_ch0 r c ∧
      (step h CAP_BUF_SIZE (run h CAP_BUF_SIZE zero_state evs) e).td0_cap_ch1 r c =
        (run h CAP_BUF_SIZE zero_state evs).td0_cap_ch1 r c) := by
  refine ⟨fun evs => run_idx_lt h CAP_BUF_SIZE (by decide) (by decide) evs, ?_, ?_, ?_⟩
  · intro s a b h0 h1
    exact ⟨advance_lt 32 _ (by decide) h0, h1⟩
  · intro s t a b h0 h1
    by_cases ht : t = h.TD0IV_TD0IFG
    · have e1 : timer_D0_channel1_hdlr h s t a b = overflow_inc s :=
        step_roll h CAP_BUF_SIZE s t a b ht
      rw [e1]; exact ⟨h0, h1⟩
    · have e1 : timer_D0_channel1_hdlr h s t a b = ch1_capture h CAP_BUF_SIZE s a b :=
        step_cap1 h CAP_BUF_SIZE s t a b ht
      rw [e1]; exact ⟨h0, advance_lt 32 _ (by decide) h1⟩
  · intro evs e r c hout
    have hlt := run_idx_lt h CAP_BUF_SIZE (by decide) (by decide) evs
    have hc := step_cells h CAP_BUF_SIZE (run h CAP_BUF_SIZE zero_state evs) e r c
    have hlt0 : (run h CAP_BUF_SIZE zero_state evs).td0_cap_ch0_index < 32 := hlt.1
    have hlt1 : (run h CAP_BUF_SIZE zero_state evs).td0_cap_ch1_index < 32 := hlt.2
    exact ⟨hc.1 (fun hh => hout ⟨hh.1, by omega⟩), hc.2 (fun hh => hout ⟨hh.1, by omega⟩)⟩

/-- Witness of C3: the channel-0 handler at a state whose cursor is 31. -/
theorem C3_cursor_range_invariant_witness :
    (timer_D0_channel0_hdlr f5172
        { zero_state with td0_cap_ch0_index := 31 } 8 7).td0_cap_ch0_index < 32 ∧
    (timer_D0_channel0_hdlr f5172
        { zero_state with td0_cap_ch0_index := 31 } 8 7).td0_cap_ch1_index < 32 :=
  (C3_cursor_range_invariant f5172).2.1 { zero_state with td0_cap_ch0_index := 31 } 8 7
    (by decide) (by decide)

/-- C4: the shared-vector handler does exactly one of two things.  When the
value read from `TD0IV` is `TD0IV_TD0IFG` it increments `td0_overflow_cnt` by
one modulo 2^16 (65535 wraps to 0) and leaves both buffers and both cursors
unchanged; for every other value it leaves `td0_overflow_cnt` unchanged, writes
the triple at the channel-1 cursor and advances that cursor, leaving channel 0
alone.  The channel-0 handler never writes `td0_overflow_cnt`. -/
theorem C4_shared_vector_dispatch (h : Hdr) (s : State) (t a b : Nat) :
    (t = h.TD0IV_TD0IFG →
      (timer_D0_channel1_hdlr h s t a b).td0_overflow_cnt = (s.td0_overflow_cnt + 1) % 65536 ∧
      (s.td0_overflow_cnt = 65535 → (timer_D0_channel1_hdlr h s t a b).td0_overflow_cnt = 0) ∧
      (timer_D0_channel1_hdlr h s t a b).td0_cap_ch0 = s.td0_cap_ch0 ∧
      (timer_D0_channel1_hdlr h s t a b).td0_cap_ch1 = s.td0_cap_ch1 ∧
      (timer_D0_channel1_hdlr h s t a b).td0_cap_ch0_index = s.td0_cap_ch0_index ∧
      (timer_D0_channel1_hdlr h s t a b).td0_cap_ch1_index = s.td0_cap_ch1_index) ∧
    (t ≠ h.TD0IV_TD0IFG →
      (timer_D0_channel1_hdlr h s t a b).td0_overflow_cnt = s.td0_overflow_cnt ∧
      slot (timer_D0_channel1_hdlr h s t a b).td0_cap_ch1 s.td0_cap_ch1_index =
        (a &&& h.CCI, s.td0_overflow_cnt, b) ∧
      (timer_D0_channel1_hdlr h s t a b).td0_cap_ch1_index =
        (if (s.td0_cap_ch1_index + 1) % 65536 = 32 then 0
         else (s.td0_cap_ch1_index + 1) % 65536) ∧
      (timer_D0_channel1_hdlr h s t a b).td0_cap_ch0 = s.td0_cap_ch0 ∧
      (timer_D0_channel1_hdlr h s t a b).td0_cap_ch0_index = s.td0_cap_ch0_index) ∧
    (timer_D0_channel0_hdlr h s a b).td0_overflow_cnt = s.td0_overflow_cnt := by
  refine ⟨fun ht => ?_, fun ht => ?_, rfl⟩
  · have e1 : timer_D0_channel1_hdlr h s t a b = overflow_inc s :=
      step_roll h CAP_BUF_SIZE s t a b ht
    rw [e1]
    refine ⟨rfl, fun h5 => ?_, rfl, rfl, rfl, rfl⟩
    simp [overflow_inc, h5]
  · have e1 : timer_D0_channel1_hdlr h s t a b = ch1_capture h CAP_BUF_SIZE s a b :=
      step_cap1 h CAP_BUF_SIZE s t a b ht
    rw [e1]
    refine ⟨rfl, ?_, rfl, rfl, rfl⟩
    simp [slot, cap1_ch1, Buf.store]

/-- Witness of C4: a rollover at counter value 65535 wraps to 0. -/
theorem C4_shared_vector_dispatch_witness :
    (timer_D0_channel1_hdlr f5172
        { zero_state with td0_overflow_cnt := 65535 } 16 0 0).td0_overflow_cnt = 0 :=
  ((C4_shared_vector_dispatch f5172
      { zero_state with td0_overflow_cnt := 65535 } 16 0 0).1 (by decide)).2.1 (by decide)

/-- C5: one capture event on a channel writes the triple (capture-control
register masked with `CCI`, current `td0_overflow_cnt`, latched `TD0CCRx`) into
rows 0, 1, 2 of that channel's buffer at the cursor column, advances that
cursor, and changes nothing else: every other cell of the same buffer, the
other channel's buffer and cursor, and `td0_overflow_cnt` are unchanged. -/
theorem C5_capture_frame (h : Hdr) (s : State) (t a b : Nat)
    (h0 : s.td0_cap_ch0_index < 32) (h1 : s.td0_cap_ch1_index < 32) :
    (slot (timer_D0_channel0_hdlr h s a b).td0_cap_ch0 s.td0_cap_ch0_index =
        (a &&& h.CCI, s.td0_overflow_cnt, b) ∧
      (∀ r c, ¬ (r < 3 ∧ c = s.td0_cap_ch0_index) →
        (timer_D0_channel0_hdlr h s a b).td0_cap_ch0 r c = s.td0_cap_ch0 r c) ∧
      (timer_D0_channel0_hdlr h s a b).td0_cap_ch0_index = (s.td0_cap_ch0_index + 1) % 32 ∧
      (timer_D0_channel0_hdlr h s a b).td0_cap_ch1 = s.td0_cap_ch1 ∧
      (timer_D0_channel0_hdlr h s a b).td0_cap_ch1_index = s.td0_cap_ch1_index ∧
      (timer_D0_channel0_hdlr h s a b).td0_overflow_cnt = s.td0_overflow_cnt) ∧
    (t ≠ h.TD0IV_TD0IFG →
      slot (timer_D0_channel1_hdlr h s t a b).td0_cap_ch1 s.td0_cap_ch1_index =
        (a &&& h.CCI, s.td0_overflow_cnt, b) ∧
      (∀ r c, ¬ (r < 3 ∧ c = s.td0_cap_ch1_index) →
        (timer_D0_channel1_hdlr h s t a b).td0_cap_ch1 r c = s.td0_cap_ch1 r c) ∧
      (timer_D0_channel1_hdlr h s t a b).td0_cap_ch1_index = (s.td0_cap_ch1_index + 1) % 32 ∧
      (timer_D0_channel1_hdlr h s t a b).td0_cap_ch0 = s.td0_cap_ch0 ∧
      (timer_D0_channel1_hdlr h s t a b).td0_cap_ch0_index = s.td0_cap_ch0_index ∧
      (timer_D0_channel1_hdlr h s t a b).td0_overflow_cnt = s.td0_overflow_cnt) := by
  constructor
  · refine ⟨?_, ?_, ?_, rfl, rfl, rfl⟩
    · simp [slot, timer_D0_channel0_hdlr, timer_D0_channel0_hdlr_cap, ch0_advance,
        ch0_store_time, ch0_store_epoch, ch0_store_level, Buf.store]
    · intro r c hn
      exact (step_cells h CAP_BUF_SIZE s (.vec0 a b) r c).1 hn
    · exact advance_mod 32 _ (by decide) h0
  · intro ht
    have e1 : timer_D0_channel1_hdlr h s t a b = ch1_capture h CAP_BUF_SIZE s a b :=
      step_cap1 h CAP_BUF_SIZE s t a b ht
    have e2 : step h CAP_BUF_SIZE s (.vec1 t a b) = ch1_capture h CAP_BUF_SIZE s a b :=
      step_cap1 h CAP_BUF_SIZE s t a b ht
    rw [e1]
    refine ⟨?_, ?_, ?_, rfl, rfl, rfl⟩
    · simp [slot, cap1_ch1, Buf.store]
    · intro r c hn
      rw [← e2]
      exact (step_cells h CAP_BUF_SIZE s (.vec1 t a b) r c).2 hn
    · exact advance_mod 32 _ (by decide) h1

/-- Witness of C5: a channel-0 capture in the zero state. -/
theorem C5_capture_frame_witness :
    slot (timer_D0_channel0_hdlr f5172 zero_state 0xFFFF 1234).td0_cap_ch0
        zero_state.td0_cap_ch0_index = (0xFFFF &&& f5172.CCI, zero_state.td0_overflow_cnt, 1234) :=
  (C5_capture_frame f5172 zero_state 2 0xFFFF 1234 (by decide) (by decide)).1.1

/-- C8: take the channel-0 capture as its four statements and run one rollover
increment between two of them (`p = 1, 2, 3`).  Compared with either
non-interleaved run (`q = 0`: rollover entirely before the capture, `q = 4`:
entirely after it) the final state has the same cursors, the same
`td0_overflow_cnt`, the same channel-1 buffer and the same channel-0 cells
except the epoch cell of the slot being written, which differs by at most one
modulo 2^16. -/
theorem C8_rollover_injection (h : Hdr) (s : State) (a b p q : Nat)
    (hp : p = 1 ∨ p = 2 ∨ p = 3) (hq : q = 0 ∨ q = 4)
    (h0 : s.td0_cap_ch0_index < 32) (h1 : s.td0_cap_ch1_index < 32) :
    ch0_capture_rollover_at h CAP_BUF_SIZE 0 s a b =
      timer_D0_channel0_hdlr h (overflow_inc s) a b ∧
    ch0_capture_rollover_at h CAP_BUF_SIZE 4 s a b =
      overflow_inc (timer_D0_channel0_hdlr h s a b) ∧
    (ch0_capture_rollover_at h CAP_BUF_SIZE p s a b).td0_cap_ch0_index =
      (ch0_capture_rollover_at h CAP_BUF_SIZE q s a b).td0_cap_ch0_index ∧
    (ch0_capture_rollover_at h CAP_BUF_SIZE p s a b).td0_cap_ch0_index < 32 ∧
    (ch0_capture_rollover_at h CAP_BUF_SIZE p s a b).td0_cap_ch1_index =
      (ch0_capture_rollover_at h CAP_BUF_SIZE q s a b).td0_cap_ch1_index ∧
    (ch0_capture_rollover_at h CAP_BUF_SIZE p s a b).td0_cap_ch1_index < 32 ∧
    (ch0_capture_rollover_at h CAP_BUF_SIZE p s a b).td0_overflow_cnt =
      (ch0_capture_rollover_at h CAP_BUF_SIZE q s a b).td0_overflow_cnt ∧
    (ch0_capture_rollover_at h CAP_BUF_SIZE p s a b).td0_cap_ch1 =
      (ch0_capture_rollover_at h CAP_BUF_SIZE q s a b).td0_cap_ch1 ∧
    (∀ r c, ¬ (r = 1 ∧ c = s.td0_cap_ch0_index) →
      (ch0_capture_rollover_at h CAP_BUF_SIZE p s a b).td0_cap_ch0 r c =
        (ch0_capture_rollover_at h CAP_BUF_SIZE q s a b).td0_cap_ch0 r c) ∧
    ((ch0_capture_rollover_at h CAP_BUF_SIZE p s a b).td0_cap_ch0 1 s.td0_cap_ch0_index =
        (ch0_capture_rollover_at h CAP_BUF_SIZE q s a b).td0_cap_ch0 1 s.td0_cap_ch0_index ∨
      (ch0_capture_rollover_at h CAP_BUF_SIZE p s a b).td0_cap_ch0 1 s.td0_cap_ch0_index =
        ((ch0_capture_rollover_at h CAP_BUF_SIZE q s a b).td0_cap_ch0 1 s.td0_cap_ch0_index
          + 1) % 65536 ∨
      (ch0_capture_rollover_at h CAP_BUF_SIZE q s a b).td0_cap_ch0 1 s.td0_cap_ch0_index =
        ((ch0_capture_rollover_at h CAP_BUF_SIZE p s a b).td0_cap_ch0 1 s.td0_cap_ch0_index
          + 1) % 65536) := by
  have hadv := advance_lt 32 s.td0_cap_ch0_index (by decide) h0
  refine ⟨rfl, rfl, ?_⟩
  rcases hp with rfl | rfl | rfl <;> rcases hq with rfl | rfl <;>
    refine ⟨rfl, hadv, rfl, h1, rfl, rfl, ?_, ?_⟩ <;>
    simp [ch0_capture_rollover_at, exec_statements, ch0_statements, ch0_advance,
      ch0_store_time, ch0_store_epoch, ch0_store_level, overflow_inc, Buf.store] <;>
    intro r c hn <;> by_cases hr : r = 1 <;> by_cases hc : c = s.td0_cap_ch0_index <;>
    simp_all

theorem records0_snoc (h : Hdr) (cap : Nat) (s : State) (xs : List Event) (e : Event) :
    records0 h cap s (xs ++ [e]) =
      records0 h cap s xs ++
        (if e.isCap0 then [recorded0 h cap (run h cap s xs) e] else []) := by
  induction xs generalizing s with
  | nil => cases hc : e.isCap0 <;> simp [records0, run, hc]
  | cons x xs ih =>
    cases hx : x.isCap0 <;> simp [records0, hx, ih, run_cons]

theorem records1_snoc (h : Hdr) (cap : Nat) (s : State) (xs : List Event) (e : Event) :
    records1 h cap s (xs ++ [e]) =
      records1 h cap s xs ++
        (if e.isCap1 h then [recorded1 h cap (run h cap s xs) e] else []) := by
  induction xs generalizing s with
  | nil => cases hc : e.isCap1 h <;> simp [records1, run, hc]
  | cons x xs ih =>
    cases hx : x.isCap1 h <;> simp [records1, hx, ih, run_cons]

theorem records0_length (h : Hdr) (cap : Nat) (s : State) (evs : List Event) :
    (records0 h cap s evs).length = evs.countP Event.isCap0 := by
  induction evs generalizing s with
  | nil => rfl
  | cons x xs ih => cases hx : x.isCap0 <;> simp [records0, hx, ih]

theorem records1_length (h : Hdr) (cap : Nat) (s : State) (evs : List Event) :
    (records1 h cap s evs).length = evs.countP (Event.isCap1 h) := by
  induction evs generalizing s with
  | nil => rfl
  | cons x xs ih => cases hx : x.isCap1 h <;> simp [records1, hx, ih]

/-- The record of a channel-0 capture is the triple of lines 151-157. -/
theorem recorded0_vec0 (h : Hdr) (cap : Nat) (s : State) (a b : Nat) :
    recorded0 h cap s (.vec0 a b) = (a &&& h.CCI, s.td0_overflow_cnt, b) := by
  simp [recorded0, slot, step_vec0_ch0, Buf.store]

/-- The record of a channel-1 capture is the triple of lines 181-187. -/
theorem recorded1_vec1 (h : Hdr) (cap : Nat) (s : State) (t a b : Nat)
    (ht : t ≠ h.TD0IV_TD0IFG) :
    recorded1 h cap s (.vec1 t a b) = (a &&& h.CCI, s.td0_overflow_cnt, b) := by
  simp [recorded1, slot, step_cap1 h cap s t a b ht, cap1_ch1, Buf.store]

/-- A step leaves every slot other than the cursor slot as it was. -/
theorem slot_step_other (h : Hdr) (cap : Nat) (s : State) (e : Event) (j : Nat) :
    (j ≠ s.td0_cap_ch0_index → slot (step h cap s e).td0_cap_ch0 j = slot s.td0_cap_ch0 j) ∧
    (j ≠ s.td0_cap_ch1_index → slot (step h cap s e).td0_cap_ch1 j = slot s.td0_cap_ch1 j) := by
  constructor
  · intro hj
    simp only [slot]
    rw [(step_cells h cap s e 0 j).1 (fun hh => hj hh.2),
      (step_cells h cap s e 1 j).1 (fun hh => hj hh.2),
      (step_cells h cap s e 2 j).1 (fun hh => hj hh.2)]
  · intro hj
    simp only [slot]
    rw [(step_cells h cap s e 0 j).2 (fun hh => hj hh.2),
      (step_cells h cap s e 1 j).2 (fun hh => hj hh.2),
      (step_cells h cap s e 2 j).2 (fun hh => hj hh.2)]

/-- Appending one record at the cursor slot keeps the sliding-window reading. -/
theorem window_push (cap : Nat) (recs : List (Nat × Nat × Nat)) (buf buf' : Buf)
    (r : Nat × Nat × Nat) (hw : SlidingWindow cap recs buf)
    (hnew : slot buf' (recs.length % cap) = r)
    (hold : ∀ j, j ≠ recs.length % cap → slot buf' j = slot buf j) :
    SlidingWindow cap (recs ++ [r]) buf' := by
  intro j hj
  have hwj := hw j hj
  constructor
  · intro i hi hij hmax
    rw [List.length_append, List.length_singleton] at hi
    by_cases hiN : i = recs.length
    · subst hiN
      rw [← hij, hnew]; simp
    · have hlt : i < recs.length := by omega
      have hne : j ≠ recs.length % cap := by
        intro hh
        exact hmax recs.length hlt (by simp) hh.symm
      rw [List.getElem?_append_left hlt, hold j hne]
      exact hwj.1 i hlt hij (fun i' h1 h2 => hmax i' h1 (by simp; omega))
  · intro hall
    have hne : j ≠ recs.length % cap := by
      intro hh
      exact hall recs.length (by simp) hh.symm
    rw [hold j hne]
    exact hwj.2 (fun i hi => hall i (by simp; omega))

/-- Channel 0's buffer is the sliding window of its records, for any capacity. -/
theorem run_window0 (h : Hdr) (cap : Nat) (hpos : 0 < cap) (hcap : cap < 65536)
    (evs : List Event) :
    SlidingWindow cap (records0 h cap zero_state evs)
      (run h cap zero_state evs).td0_cap_ch0 := by
  induction evs using List.reverseRecOn with
  | nil =>
    intro j _
    exact ⟨fun i hi => absurd hi (by simp [records0]), fun _ => rfl⟩
  | append_singleton xs e ih =>
    rw [run_snoc, records0_snoc]
    have hidx := run_idx0 h cap hpos hcap xs
    rw [← records0_length h cap zero_state xs] at hidx
    cases hc : e.isCap0 with
    | false =>
      rw [(step_not_cap0 h cap _ e hc).2]
      simpa using ih
    | true =>
      simp only [if_true]
      refine window_push cap _ _ _ _ ih ?_ ?_
      · rw [← hidx]; rfl
      · intro j hj
        rw [← hidx] at hj
        exact (slot_step_other h cap _ e j).1 hj

/-- Channel 1's buffer is the sliding window of its records, for any capacity. -/
theorem run_window1 (h : Hdr) (cap : Nat) (hpos : 0 < cap) (hcap : cap < 65536)
    (evs : List Event) :
    SlidingWindow cap (records1 h cap zero_state evs)
      (run h cap zero_state evs).td0_cap_ch1 := by
  induction evs using List.reverseRecOn with
  | nil =>
    intro j _
    exact ⟨fun i hi => absurd hi (by simp [records1]), fun _ => rfl⟩
  | append_singleton xs e ih =>
    rw [run_snoc, records1_snoc]
    have hidx := run_idx1 h cap hpos hcap xs
    rw [← records1_length h cap zero_state xs] at hidx
    cases hc : e.isCap1 h with
    | false =>
      rw [(step_not_cap1 h cap _ e hc).2]
      simpa using ih
    | true =>
      simp only [if_true]
      refine window_push cap _ _ _ _ ih ?_ ?_
      · rw [← hidx]; rfl
      · intro j hj
        rw [← hidx] at hj
        exact (slot_step_other h cap _ e j).2 hj

/-- While the window is not full, slot `i` holds record `i`. -/
theorem window_not_full (cap : Nat) (recs : List (Nat × Nat × Nat)) (buf : Buf)
    (hw : SlidingWindow cap recs buf) (hle : recs.length ≤ cap) (i : Nat)
    (hi : i < recs.length) : recs[i]? = some (slot buf i) := by
  refine (hw i (by omega)).1 i hi (Nat.mod_eq_of_lt (by omega)) ?_
  intro i' h1 h2
  rw [Nat.mod_eq_of_lt (by omega)]
  omega

/-- Once the window is full, the last `cap` records are in the buffer. -/
theorem window_full (cap : Nat) (hpos : 0 < cap) (recs : List (Nat × Nat × Nat)) (buf : Buf)
    (hw : SlidingWindow cap recs buf) (i : Nat)
    (hlo : recs.length - cap ≤ i) (hi : i < recs.length) :
    recs[i]? = some (slot buf (i % cap)) := by
  refine (hw (i % cap) (Nat.mod_lt _ hpos)).1 i hi rfl ?_
  intro i' h1 h2 heq
  have hmod : i ≡ i' [MOD cap] := heq.symm
  have hdvd : cap ∣ i' - i := (Nat.modEq_iff_dvd' (Nat.le_of_lt h1)).1 hmod
  have hle : cap ≤ i' - i := Nat.le_of_dvd (by omega) hdvd
  omega

/-- The capacity-4 example: six records with levels 1,0,1,0,1,0. -/
theorem window4_six (recs : List (Nat × Nat × Nat)) (buf : Buf)
    (hw : SlidingWindow 4 recs buf) (hl : recs.map level_bit = [1, 0, 1, 0, 1, 0]) :
    recs[2]? = some (slot buf 2) ∧ recs[3]? = some (slot buf 3) ∧
    recs[4]? = some (slot buf 0) ∧ recs[5]? = some (slot buf 1) ∧
    [2, 3, 0, 1].map (fun j => level_bit (slot buf j)) = [1, 0, 1, 0] := by
  have hlen : recs.length = 6 := by
    have := congrArg List.length hl
    simpa using this
  have e2 := window_full 4 (by decide) recs buf hw 2 (by omega) (by omega)
  have e3 := window_full 4 (by decide) recs buf hw 3 (by omega) (by omega)
  have e4 := window_full 4 (by decide) recs buf hw 4 (by omega) (by omega)
  have e5 := window_full 4 (by decide) recs buf hw 5 (by omega) (by omega)
  refine ⟨e2, e3, e4, e5, ?_⟩
  match recs, hl, hlen with
  | [r0, r1, r2, r3, r4, r5], hl, _ =>
    simp only [List.map, List.cons.injEq, and_true] at hl
    simp at e2 e3 e4 e5
    simp [← e2, ← e3, ← e4, ← e5, hl]

/-- C2: the record of a capture is the triple (masked level, epoch, timestamp),
and from the zero-initialised state each channel's buffer is a sliding
window of the records of its capture events: a slot to which some record index
(numbered from 0) is congruent modulo 32 holds the latest such record, any
other slot is still zero; so the buffer holds all records while there are at
most 32 of them and the last 32 afterwards.  With capacity 4 and six captures
of levels 1,0,1,0,1,0 the slots 2,3,0,1 hold captures 3,4,5,6 with levels
1,0,1,0. -/
theorem C2_sliding_window (h : Hdr) (evs : List Event) :
    (∀ (s : State) (t a b : Nat),
      recorded0 h CAP_BUF_SIZE s (.vec0 a b) = (a &&& h.CCI, s.td0_overflow_cnt, b) ∧
      (t ≠ h.TD0IV_TD0IFG →
        recorded1 h CAP_BUF_SIZE s (.vec1 t a b) = (a &&& h.CCI, s.td0_overflow_cnt, b))) ∧
    ((records0 h CAP_BUF_SIZE zero_state evs).length = evs.countP Event.isCap0 ∧
      SlidingWindow 32 (records0 h CAP_BUF_SIZE zero_state evs)
        (run h CAP_BUF_SIZE zero_state evs).td0_cap_ch0 ∧
      ((records0 h CAP_BUF_SIZE zero_state evs).length ≤ 32 →
        ∀ i, i < (records0 h CAP_BUF_SIZE zero_state evs).length →
          (records0 h CAP_BUF_SIZE zero_state evs)[i]? =
            some (slot (run h CAP_BUF_SIZE zero_state evs).td0_cap_ch0 i)) ∧
      (32 < (records0 h CAP_BUF_SIZE zero_state evs).length →
        ∀ i, (records0 h CAP_BUF_SIZE zero_state evs).length - 32 ≤ i →
          i < (records0 h CAP_BUF_SIZE zero_state evs).length →
          (records0 h CAP_BUF_SIZE zero_state evs)[i]? =
            some (slot (run h CAP_BUF_SIZE zero_state evs).td0_cap_ch0 (i % 32)))) ∧
    ((records1 h CAP_BUF_SIZE zero_state evs).length = evs.countP (Event.isCap1 h) ∧
      SlidingWindow 32 (records1 h CAP_BUF_SIZE zero_state evs)
        (run h CAP_BUF_SIZE zero_state evs).td0_cap_ch1 ∧
      ((records1 h CAP_BUF_SIZE zero_state evs).length ≤ 32 →
        ∀ i, i < (records1 h CAP_BUF_SIZE zero_state evs).length →
          (records1 h CAP_BUF_SIZE zero_state evs)[i]? =
            some (slot (run h CAP_BUF_SIZE zero_state evs).td0_cap_ch1 i)) ∧
      (32 < (records1 h CAP_BUF_SIZE zero_state evs).length →
        ∀ i, (records1 h CAP_BUF_SIZE zero_state evs).length - 32 ≤ i →
          i < (records1 h CAP_BUF_SIZE zero_state evs).length →
          (records1 h CAP_BUF_SIZE zero_state evs)[i]? =
            some (slot (run h CAP_BUF_SIZE zero_state evs).td0_cap_ch1 (i % 32)))) ∧
    ((records0 h 4 zero_state evs).map level_bit = [1, 0, 1, 0, 1, 0] →
      (records0 h 4 zero_state evs)[2]? = some (slot (run h 4 zero_state evs).td0_cap_ch0 2) ∧
      (records0 h 4 zero_state evs)[3]? = some (slot (run h 4 zero_state evs).td0_cap_ch0 3) ∧
      (records0 h 4 zero_state evs)[4]? = some (slot (run h 4 zero_state evs).td0_cap_ch0 0) ∧
      (records0 h 4 zero_state evs)[5]? = some (slot (run h 4 zero_state evs).td0_cap_ch0 1) ∧
      [2, 3, 0, 1].map (fun j => level_bit (slot (run h 4 zero_state evs).td0_cap_ch0 j)) =
        [1, 0, 1, 0]) ∧
    ((records1 h 4 zero_state evs).map level_bit = [1, 0, 1, 0, 1, 0] →
      (records1 h 4 zero_state evs)[2]? = some (slot (run h 4 zero_state evs).td0_cap_ch1 2) ∧
      (records1 h 4 zero_state evs)[3]? = some (slot (run h 4 zero_state evs).td0_cap_ch1 3) ∧
      (records1 h 4 zero_state evs)[4]? = some (slot (run h 4 zero_state evs).td0_cap_ch1 0) ∧
      (records1 h 4 zero_state evs)[5]? = some (slot (run h 4 zero_state evs).td0_cap_ch1 1) ∧
      [2, 3, 0, 1].map (fun j => level_bit (slot (run h 4 zero_state evs).td0_cap_ch1 j)) =
        [1, 0, 1, 0]) := by
  have w0 := run_window0 h CAP_BUF_SIZE (by decide) (by decide) evs
  have w1 := run_window1 h CAP_BUF_SIZE (by decide) (by decide) evs
  refine ⟨fun s t a b => ⟨recorded0_vec0 h _ s a b, recorded1_vec1 h _ s t a b⟩,
    ⟨records0_length _ _ _ _, w0, ?_, ?_⟩, ⟨records1_length _ _ _ _, w1, ?_, ?_⟩, ?_, ?_⟩
  · intro hle i hi
    exact window_not_full 32 _ _ w0 hle i hi
  · intro _ i hlo hi
    exact window_full 32 (by decide) _ _ w0 i hlo hi
  · intro hle i hi
    exact window_not_full 32 _ _ w1 hle i hi
  · intro _ i hlo hi
    exact window_full 32 (by decide) _ _ w1 i hlo hi
  · intro hl
    exact window4_six _ _ (run_window0 h 4 (by decide) (by decide) evs) hl
  · intro hl
    exact window4_six _ _ (run_window1 h 4 (by decide) (by decide) evs) hl

/-- Witness of C2: six channel-0 captures with levels 1,0,1,0,1,0, capacity 4. -/
theorem C2_sliding_window_witness :
    [2, 3, 0, 1].map (fun j => level_bit (slot (run f5172 4 zero_state
      [.vec0 8 10, .vec0 0 20, .vec0 8 30, .vec0 0 40, .vec0 8 50, .vec0 0 60]).td0_cap_ch0 j))
      = [1, 0, 1, 0] :=
  ((C2_sliding_window f5172
    [.vec0 8 10, .vec0 0 20, .vec0 8 30, .vec0 0 40, .vec0 8 50, .vec0 0 60]).2.2.2.1
      (by decide)).2.2.2.2

/-- The overflow counter after one step. -/
theorem step_cnt (h : Hdr) (cap : Nat) (s : State) (e : Event) :
    (step h cap s e).td0_overflow_cnt =
      if e.isRollover h then (s.td0_overflow_cnt + 1) % 65536 else s.td0_overflow_cnt := by
  cases hr : e.isRollover h with
  | false => simpa using step_not_roll h cap s e hr
  | true =>
    cases e with
    | vec0 a b => simp [Event.isRollover] at hr
    | vec1 t a b =>
      have ht : t = h.TD0IV_TD0IFG := by simpa [Event.isRollover] using hr
      rw [step_roll h cap s t a b ht]; rfl

/-- Events that are not rollovers leave the overflow counter as it was. -/
theorem run_no_roll_cnt (h : Hdr) (cap : Nat) (s : State) (evs : List Event)
    (hn : ∀ e ∈ evs, e.isRollover h = false) :
    (run h cap s evs).td0_overflow_cnt = s.td0_overflow_cnt := by
  induction evs generalizing s with
  | nil => rfl
  | cons x xs ih =>
    rw [run_cons, ih _ (fun e he => hn e (List.mem_cons_of_mem _ he)),
      step_not_roll h cap s x (hn x (List.mem_cons_self _ _))]

/-- The overflow counter after `n` consecutive rollovers. -/
theorem run_replicate_roll (h : Hdr) (cap : Nat) (s : State) (n a b : Nat) :
    (run h cap s (List.replicate n (.vec1 h.TD0IV_TD0IFG a b))).td0_overflow_cnt % 65536 =
      (s.td0_overflow_cnt + n) % 65536 := by
  induction n generalizing s with
  | zero => rfl
  | succ n ih =>
    rw [List.replicate_succ, run_cons, ih, step_roll h cap s _ a b rfl]
    simp only [overflow_inc]
    omega

/-- The overflow counter is a 16-bit value in every reachable state. -/
theorem reachable_cnt_lt (h : Hdr) (cap : Nat) (s : State) (hs : Reachable h cap s) :
    s.td0_overflow_cnt < 65536 := by
  obtain ⟨evs, rfl⟩ := hs
  induction evs using List.reverseRecOn with
  | nil => simp [run, zero_state]
  | append_singleton xs e ih =>
    rw [run_snoc, step_cnt]
    split
    · exact Nat.mod_lt _ (by decide)
    · exact ih

/-- The epoch of the record of a capture is the overflow counter at that time. -/
theorem epoch_recorded (h : Hdr) (cap : Nat) (s : State) (e : Event) :
    (e.isCap0 = true → epoch (recorded0 h cap s e) = s.td0_overflow_cnt) ∧
    (e.isCap1 h = true → epoch (recorded1 h cap s e) = s.td0_overflow_cnt) := by
  cases e with
  | vec0 a b =>
    refine ⟨fun _ => ?_, fun hc => ?_⟩
    · rw [recorded0_vec0]; rfl
    · simp [Event.isCap1] at hc
  | vec1 t a b =>
    refine ⟨fun hc => ?_, fun hc => ?_⟩
    · simp [Event.isCap0] at hc
    · have ht : t ≠ h.TD0IV_TD0IFG := by simpa [Event.isCap1] using hc
      rw [recorded1_vec1 h cap s t a b ht]; rfl

/-- The overflow counter after: a non-rollover event, events without rollover,
one rollover, and again events without rollover. -/
theorem cnt_across_one_rollover (h : Hdr) (cap : Nat) (s : State) (e1 r : Event)
    (mid1 mid2 : List Event) (h1 : e1.isRollover h = false) (hr : r.isRollover h = true)
    (hm1 : ∀ e ∈ mid1, e.isRollover h = false) (hm2 : ∀ e ∈ mid2, e.isRollover h = false) :
    (run h cap s (e1 :: mid1 ++ r :: mid2)).td0_overflow_cnt =
      (s.td0_overflow_cnt + 1) % 65536 := by
  rw [run_append, run_cons h cap _ r mid2, run_no_roll_cnt h cap _ mid2 hm2, step_cnt, hr,
    run_cons h cap s e1 mid1, run_no_roll_cnt h cap _ mid1 hm1, step_not_roll h cap s e1 h1]
  rfl

theorem cap0_not_roll (h : Hdr) (e : Event) (hc : e.isCap0 = true) :
    e.isRollover h = false := by
  cases e <;> simp_all [Event.isCap0, Event.isRollover]

theorem cap1_not_roll (h : Hdr) (e : Event) (hc : e.isCap1 h = true) :
    e.isRollover h = false := by
  cases e <;> simp_all [Event.isCap1, Event.isRollover]

/-- C6 as stated fails at the wrap of the 16-bit counter: in the state reached
by 65535 rollovers a channel-0 capture records epoch 65535, and after one more
rollover the next channel-0 capture records epoch 0, not 65536. -/
theorem C6_counterexample :
    epoch (recorded0 f5172 CAP_BUF_SIZE
      (run f5172 CAP_BUF_SIZE zero_state (List.replicate 65535 (.vec1 16 0 0)))
      (.vec0 0 0)) = 65535 ∧
    epoch (recorded0 f5172 CAP_BUF_SIZE
      (run f5172 CAP_BUF_SIZE
        (run f5172 CAP_BUF_SIZE zero_state (List.replicate 65535 (.vec1 16 0 0)))
        ([.vec0 0 0] ++ [.vec1 16 0 0]))
      (.vec0 0 0)) ≠ 65535 + 1 := by
  have hreach : Reachable f5172 CAP_BUF_SIZE
      (run f5172 CAP_BUF_SIZE zero_state (List.replicate 65535 (.vec1 16 0 0))) := ⟨_, rfl⟩
  have hlt := reachable_cnt_lt f5172 CAP_BUF_SIZE _ hreach
  have key : ∀ n, (run f5172 CAP_BUF_SIZE zero_state
      (List.replicate n (.vec1 16 0 0))).td0_overflow_cnt % 65536 = (0 + n) % 65536 :=
    fun n => run_replicate_roll f5172 CAP_BUF_SIZE zero_state n 0 0
  have hc := key 65535
  rw [Nat.mod_eq_of_lt hlt] at hc
  have hc' : (run f5172 CAP_BUF_SIZE zero_state
      (List.replicate 65535 (.vec1 16 0 0))).td0_overflow_cnt = 65535 := by
    rw [hc]
  constructor
  · rw [(epoch_recorded f5172 CAP_BUF_SIZE _ (.vec0 0 0)).1 rfl, hc']
  · rw [(epoch_recorded f5172 CAP_BUF_SIZE _ (.vec0 0 0)).1 rfl]
    have := cnt_across_one_rollover f5172 CAP_BUF_SIZE
      (run f5172 CAP_BUF_SIZE zero_state (List.replicate 65535 (.vec1 16 0 0)))
      (.vec0 0 0) (.vec1 16 0 0) [] [] rfl rfl (by simp) (by simp)
    rw [hc'] at this
    simp only [List.nil_append, List.singleton_append] at this ⊢
    rw [this]
    decide

/-- C6 (amended): in every reachable state, when a capture on a channel is
followed by events without rollover, exactly one rollover, events without
rollover, and then another capture on the same channel, the epoch recorded by
the second capture is the first one's plus one modulo 2^16: exactly one greater
unless the first epoch is 65535, in which case it is 0. -/
theorem C6_epoch_after_one_rollover (h : Hdr) (s : State) (e1 e2 r : Event)
    (mid1 mid2 : List Event) (hs : Reachable h CAP_BUF_SIZE s)
    (hr : r.isRollover h = true)
    (hm1 : ∀ e ∈ mid1, e.isRollover h = false) (hm2 : ∀ e ∈ mid2, e.isRollover h = false) :
    (e1.isCap0 = true → e2.isCap0 = true →
      epoch (recorded0 h CAP_BUF_SIZE (run h CAP_BUF_SIZE s (e1 :: mid1 ++ r :: mid2)) e2) =
        (epoch (recorded0 h CAP_BUF_SIZE s e1) + 1) % 65536 ∧
      (epoch (recorded0 h CAP_BUF_SIZE s e1) ≠ 65535 →
        epoch (recorded0 h CAP_BUF_SIZE (run h CAP_BUF_SIZE s (e1 :: mid1 ++ r :: mid2)) e2) =
          epoch (recorded0 h CAP_BUF_SIZE s e1) + 1) ∧
      (epoch (recorded0 h CAP_BUF_SIZE s e1) = 65535 →
        epoch (recorded0 h CAP_BUF_SIZE (run h CAP_BUF_SIZE s (e1 :: mid1 ++ r :: mid2)) e2) =
          0)) ∧
    (e1.isCap1 h = true → e2.isCap1 h = true →
      epoch (recorded1 h CAP_BUF_SIZE (run h CAP_BUF_SIZE s (e1 :: mid1 ++ r :: mid2)) e2) =
        (epoch (recorded1 h CAP_BUF_SIZE s e1) + 1) % 65536 ∧
      (epoch (recorded1 h CAP_BUF_SIZE s e1) ≠ 65535 →
        epoch (recorded1 h CAP_BUF_SIZE (run h CAP_BUF_SIZE s (e1 :: mid1 ++ r :: mid2)) e2) =
          epoch (recorded1 h CAP_BUF_SIZE s e1) + 1) ∧
      (epoch (recorded1 h CAP_BUF_SIZE s e1) = 65535 →
        epoch (recorded1 h CAP_BUF_SIZE (run h CAP_BUF_SIZE s (e1 :: mid1 ++ r :: mid2)) e2) =
          0)) := by
  have hlt := reachable_cnt_lt h CAP_BUF_SIZE s hs
  constructor
  · intro c1 c2
    have hc := cnt_across_one_rollover h CAP_BUF_SIZE s e1 r mid1 mid2
      (cap0_not_roll h e1 c1) hr hm1 hm2
    rw [(epoch_recorded h CAP_BUF_SIZE _ e2).1 c2, (epoch_recorded h CAP_BUF_SIZE s e1).1 c1, hc]
    refine ⟨rfl, fun hne => ?_, fun heq => ?_⟩
    · exact Nat.mod_eq_of_lt (by omega)
    · rw [heq]
  · intro c1 c2
    have hc := cnt_across_one_rollover h CAP_BUF_SIZE s e1 r mid1 mid2
      (cap1_not_roll h e1 c1) hr hm1 hm2
    rw [(epoch_recorded h CAP_BUF_SIZE _ e2).2 c2, (epoch_recorded h CAP_BUF_SIZE s e1).2 c1, hc]
    refine ⟨rfl, fun hne => ?_, fun heq => ?_⟩
    · exact Nat.mod_eq_of_lt (by omega)
    · rw [heq]

/-- Witness of C6 (amended): capture, channel-1 capture, rollover, capture. -/
theorem C6_epoch_after_one_rollover_witness :
    epoch (recorded0 f5172 CAP_BUF_SIZE
      (run f5172 CAP_BUF_SIZE zero_state (.vec0 8 1 :: [.vec1 2 0 0] ++ .vec1 16 0 0 :: []))
      (.vec0 0 5)) =
      (epoch (recorded0 f5172 CAP_BUF_SIZE zero_state (.vec0 8 1)) + 1) % 65536 :=
  ((C6_epoch_after_one_rollover f5172 zero_state (.vec0 8 1) (.vec0 0 5) (.vec1 16 0 0)
    [.vec1 2 0 0] [] ⟨[], rfl⟩ (by decide) (by decide) (by simp)).1 (by decide) (by decide)).1

theorem records0_append (h : Hdr) (cap : Nat) (s : State) (xs ys : List Event) :
    records0 h cap s (xs ++ ys) = records0 h cap s xs ++ records0 h cap (run h cap s xs) ys := by
  induction xs generalizing s with
  | nil => rfl
  | cons x xs ih => cases hx : x.isCap0 <;> simp [records0, hx, ih, run_cons]

/-- A run of rollovers writes no record on channel 0. -/
theorem records0_replicate_roll (h : Hdr) (cap : Nat) (s : State) (n t a b : Nat) :
    records0 h cap s (List.replicate n (.vec1 t a b)) = [] := by
  induction n generalizing s with
  | zero => rfl
  | succ n ih => rw [List.replicate_succ]; simp [records0, Event.isCap0, ih]

/-- Before the counter wraps, the epochs recorded on a channel from state `s`
on are at least the counter of `s` and non-decreasing. -/
theorem epochs_sorted_from (h : Hdr) (cap : Nat) (s : State) (evs : List Event)
    (hb : s.td0_overflow_cnt + evs.countP (Event.isRollover h) < 65536) :
    ((∀ x ∈ (records0 h cap s evs).map epoch, s.td0_overflow_cnt ≤ x) ∧
      List.Pairwise (· ≤ ·) ((records0 h cap s evs).map epoch)) ∧
    ((∀ x ∈ (records1 h cap s evs).map epoch, s.td0_overflow_cnt ≤ x) ∧
      List.Pairwise (· ≤ ·) ((records1 h cap s evs).map epoch)) := by
  induction evs generalizing s with
  | nil => simp [records0, records1]
  | cons e es ih =>
    have hcnt := step_cnt h cap s e
    have hb' : (step h cap s e).td0_overflow_cnt +
        es.countP (Event.isRollover h) < 65536 := by
      rw [hcnt]
      rw [List.countP_cons] at hb
      cases hr : e.isRollover h
      · simp [hr] at hb ⊢; omega
      · simp [hr] at hb ⊢
        rw [Nat.mod_eq_of_lt (by omega)]; omega
    have hle : s.td0_overflow_cnt ≤ (step h cap s e).td0_overflow_cnt := by
      rw [hcnt]
      rw [List.countP_cons] at hb
      cases hr : e.isRollover h
      · simp
      · simp [hr] at hb ⊢
        rw [Nat.mod_eq_of_lt (by omega)]; omega
    obtain ⟨⟨ih0a, ih0b⟩, ⟨ih1a, ih1b⟩⟩ := ih (step h cap s e) hb'
    constructor
    · cases hc : e.isCap0 with
      | false =>
        simp only [records0, hc]
        exact ⟨fun x hx => Nat.le_trans hle (ih0a x hx), ih0b⟩
      | true =>
        simp only [records0, hc, if_true, List.map_cons]
        rw [(epoch_recorded h cap s e).1 hc]
        refine ⟨?_, ?_⟩
        · intro x hx
          rcases List.mem_cons.1 hx with rfl | hx
          · exact Nat.le_refl _
          · exact Nat.le_trans hle (ih0a x hx)
        · exact List.Pairwise.cons (fun x hx => Nat.le_trans hle (ih0a x hx)) ih0b
    · cases hc : e.isCap1 h with
      | false =>
        simp only [records1, hc]
        exact ⟨fun x hx => Nat.le_trans hle (ih1a x hx), ih1b⟩
      | true =>
        simp only [records1, hc, if_true, List.map_cons]
        rw [(epoch_recorded h cap s e).2 hc]
        refine ⟨?_, ?_⟩
        · intro x hx
          rcases List.mem_cons.1 hx with rfl | hx
          · exact Nat.le_refl _
          · exact Nat.le_trans hle (ih1a x hx)
        · exact List.Pairwise.cons (fun x hx => Nat.le_trans hle (ih1a x hx)) ih1b

/-- C7 as stated fails once the 16-bit counter wraps: after one rollover a
channel-0 capture records epoch 1; 65535 rollovers later the counter is 0
again and the next channel-0 capture records epoch 0. -/
theorem C7_counterexample :
    (records0 f5172 CAP_BUF_SIZE zero_state
      (([.vec1 16 0 0, .vec0 0 0] ++ List.replicate 65535 (.vec1 16 0 0)) ++
        [.vec0 0 0])).map epoch = [1, 0] ∧
    ¬ List.Pairwise (· ≤ ·) ((records0 f5172 CAP_BUF_SIZE zero_state
      (([.vec1 16 0 0, .vec0 0 0] ++ List.replicate 65535 (.vec1 16 0 0)) ++
        [.vec0 0 0])).map epoch) := by
  have key : ∀ n, (records0 f5172 CAP_BUF_SIZE zero_state
      (([.vec1 16 0 0, .vec0 0 0] ++ List.replicate n (.vec1 16 0 0)) ++
        [.vec0 0 0])).map epoch = [1, (1 + n) % 65536] := by
    intro n
    have hroll := run_replicate_roll f5172 CAP_BUF_SIZE
      (run f5172 CAP_BUF_SIZE zero_state [.vec1 16 0 0, .vec0 0 0]) n 0 0
    have hreach : Reachable f5172 CAP_BUF_SIZE (run f5172 CAP_BUF_SIZE zero_state
        ([.vec1 16 0 0, .vec0 0 0] ++ List.replicate n (.vec1 16 0 0))) := ⟨_, rfl⟩
    have hlt := reachable_cnt_lt f5172 CAP_BUF_SIZE _ hreach
    rw [run_append] at hlt
    have hroll' : (run f5172 CAP_BUF_SIZE
        (run f5172 CAP_BUF_SIZE zero_state [.vec1 16 0 0, .vec0 0 0])
        (List.replicate n (.vec1 16 0 0))).td0_overflow_cnt % 65536 = (1 + n) % 65536 := hroll
    rw [Nat.mod_eq_of_lt hlt] at hroll'
    rw [records0_snoc, records0_append, records0_replicate_roll, run_append]
    simp only [List.append_nil, Event.isCap0, if_true, List.map_append, List.map_cons,
      List.map_nil]
    rw [(epoch_recorded f5172 CAP_BUF_SIZE _ (.vec0 0 0)).1 rfl, hroll']
    rfl
  have h2 := key 65535
  refine ⟨by rw [h2], ?_⟩
  rw [h2]
  decide

/-- C7 (amended): for every sequence of rollover and capture events applied to
the zero-initialised state that contains fewer than 65536 rollovers (the 16-bit
counter has not wrapped), the epochs recorded by each channel's successive
captures are non-decreasing in event order. -/
theorem C7_epochs_monotone_before_wrap (h : Hdr) (evs : List Event)
    (hroll : evs.countP (Event.isRollover h) < 65536) :
    List.Pairwise (· ≤ ·) ((records0 h CAP_BUF_SIZE zero_state evs).map epoch) ∧
    List.Pairwise (· ≤ ·) ((records1 h CAP_BUF_SIZE zero_state evs).map epoch) := by
  have hb : zero_state.td0_overflow_cnt + evs.countP (Event.isRollover h) < 65536 := by
    simpa [zero_state] using hroll
  have := epochs_sorted_from h CAP_BUF_SIZE zero_state evs hb
  exact ⟨this.1.2, this.2.2⟩

/-- Witness of C7 (amended): two captures around one rollover. -/
theorem C7_epochs_monotone_before_wrap_witness :
    List.Pairwise (· ≤ ·) ((records0 f5172 CAP_BUF_SIZE zero_state
      [.vec0 8 1, .vec1 16 0 0, .vec0 0 2]).map epoch) :=
  (C7_epochs_monotone_before_wrap f5172 [.vec0 8 1, .vec1 16 0 0, .vec0 0 2] (by decide)).1

/-- Witness of C8: rollover injected between the epoch store and the timestamp
store, compared with the rollover entirely before the capture. -/
theorem C8_rollover_injection_witness :
    (ch0_capture_rollover_at f5172 CAP_BUF_SIZE 2 zero_state 8 77).td0_overflow_cnt =
      (ch0_capture_rollover_at f5172 CAP_BUF_SIZE 0 zero_state 8 77).td0_overflow_cnt :=
  (C8_rollover_injection f5172 zero_state 8 77 2 0 (by decide) (by decide)
    (by decide) (by decide)).2.2.2.2.2.2.1

/-! ## Facts about the register traces -/

theorem core_writes_append (a b : Trace) :
    core_writes (a ++ b) = core_writes a ++ core_writes b := by
  simp [core_writes, List.filterMap_append]

theorem timeline_append (a b : Trace) : timeline (a ++ b) = timeline a ++ timeline b := by
  simp [timeline, List.filter_append]

theorem core_writes_cons (a : Access) (t : Trace) :
    core_writes (a :: t) = core_writes [a] ++ core_writes t :=
  core_writes_append [a] t

theorem timeline_cons (a : Access) (t : Trace) :
    timeline (a :: t) = timeline [a] ++ timeline t :=
  timeline_append [a] t

/-- A successful busy-wait appends `PMMIFG` reads only, and the last one shows
the awaited flag. -/
theorem poll_spec (hw : Hardware) (mask : Nat) (fuel : Nat) (t t' : Trace)
    (hp : poll hw mask fuel t = some t') :
    ∃ (rs : Trace) (v : Nat), t' = t ++ rs ++ [.read .PMMIFG v] ∧ v &&& mask ≠ 0 ∧
      core_writes rs = [] ∧ timeline rs = [] := by
  induction fuel generalizing t with
  | zero => simp [poll] at hp
  | succ n ih =>
    rw [poll] at hp
    split at hp
    · obtain ⟨rs, v, e, hv, hc, ht⟩ := ih _ hp
      refine ⟨.read .PMMIFG (reg_read hw .PMMIFG t) :: rs, v, ?_, hv, ?_, ?_⟩
      · rw [e]; simp
      · simpa [core_writes] using hc
      · simpa [timeline, Access.isTimerWrite, Access.isStatusOp] using ht
    · rename_i hne
      refine ⟨[], reg_read hw .PMMIFG t, ?_, hne, rfl, rfl⟩
      simpa using (Option.some.inj hp).symm

/-- More fuel does not change the outcome of a successful busy-wait. -/
theorem poll_mono (hw : Hardware) (mask : Nat) (fuel fuel' : Nat) (t t' : Trace)
    (hp : poll hw mask fuel t = some t') (hle : fuel ≤ fuel') :
    poll hw mask fuel' t = some t' := by
  induction fuel generalizing t fuel' with
  | zero => simp [poll] at hp
  | succ n ih =>
    cases fuel' with
    | zero => omega
    | succ m =>
      rw [poll] at hp ⊢
      split
      · rename_i hz
        rw [if_pos hz] at hp
        exact ih m _ hp (by omega)
      · rename_i hz
        rw [if_neg hz] at hp
        exact hp

/-- The conditional wait of lines 213-214 appends `PMMIFG` reads only. -/
theorem wait_level_reached_spec (h : Hdr) (hw : Hardware) (fuel : Nat) (t t' : Trace)
    (hp : wait_level_reached h hw fuel t = some t') :
    ∃ rs : Trace, t' = t ++ rs ∧ core_writes rs = [] ∧ timeline rs = [] := by
  unfold wait_level_reached at hp
  split at hp
  · obtain ⟨rs, v, e, _, hc, ht⟩ := poll_spec hw _ fuel _ _ hp
    refine ⟨.read .PMMIFG (reg_read hw .PMMIFG t) :: (rs ++ [.read .PMMIFG v]), ?_, ?_, ?_⟩
    · rw [e]; simp
    · rw [core_writes_cons, core_writes_append, hc]; rfl
    · rw [timeline_cons, timeline_append, ht]; rfl
  · refine ⟨[.read .PMMIFG (reg_read hw .PMMIFG t)], ?_, rfl, rfl⟩
    exact (Option.some.inj hp).symm

theorem wait_level_reached_mono (h : Hdr) (hw : Hardware) (fuel fuel' : Nat) (t t' : Trace)
    (hp : wait_level_reached h hw fuel t = some t') (hle : fuel ≤ fuel') :
    wait_level_reached h hw fuel' t = some t' := by
  unfold wait_level_reached at hp ⊢
  split
  · rename_i hz
    rw [if_pos hz] at hp
    exact poll_mono hw _ fuel fuel' _ _ hp hle
  · rename_i hz
    rw [if_neg hz] at hp
    exact hp

/-- What one call of `SetVcoreUp` appends to the trace. -/
theorem SetVcoreUp_spec (h : Hdr) (hw : Hardware) (level fuel : Nat) (t t' : Trace)
    (hp : SetVcoreUp h hw level fuel t = some t') :
    ∃ seg : Trace, t' = t ++ seg ∧ SettledCoreWrite h level seg ∧ timeline seg = [] ∧
      core_writes seg = [(h.PMMCOREV0 * level) % 65536] := by
  simp only [SetVcoreUp, Option.bind_eq_bind, Option.bind_eq_some, Option.pure_def,
    Option.some.injEq] at hp
  obtain ⟨t1, hp1, t2, hp2, rfl⟩ := hp
  obtain ⟨rs, v, e1, hv, hc1, ht1⟩ := poll_spec hw _ fuel _ _ hp1
  obtain ⟨rs2, e2, hc2, ht2⟩ := wait_level_reached_spec h hw fuel _ _ hp2
  have hseg : SettledCoreWrite h level
      (([.write .PMMCTL0_H h.PMMPW_H,
          .write .SVSMHCTL
            ((h.SVSHE + h.SVSHRVL0 * level + h.SVMHE + h.SVSMHRRL0 * level) % 65536),
          .write .SVSMLCTL ((h.SVSLE + h.SVMLE + h.SVSMLRRL0 * level) % 65536)] ++ rs) ++
        [.read .PMMIFG v, .read .PMMIFG (reg_read hw .PMMIFG t1),
          .write .PMMIFG
            ((reg_read hw .PMMIFG t1 &&& bnot16 (h.SVMLVLRIFG + h.SVMLIFG)) % 65536),
          .write .PMMCTL0_L ((h.PMMCOREV0 * level) % 65536)] ++
        (rs2 ++ [.write .SVSMLCTL
            ((h.SVSLE + h.SVSLRVL0 * level + h.SVMLE + h.SVSMLRRL0 * level) % 65536),
          .write .PMMCTL0_H 0x00])) := by
    refine ⟨_, _, v, reg_read hw .PMMIFG t1, rfl, hv, ?_, ?_⟩
    · rw [core_writes_append, hc1]; rfl
    · rw [core_writes_append, hc2]; rfl
  refine ⟨_, ?_, hseg, ?_, ?_⟩
  · rw [e2]
    simp only [reg_write, reg_and]
    rw [e1]
    simp [reg_write]
  · simp only [timeline_append, ht1, ht2]; rfl
  · simp only [core_writes_append, hc1, hc2]; rfl

theorem SetVcoreUp_mono (h : Hdr) (hw : Hardware) (level fuel fuel' : Nat) (t t' : Trace)
    (hp : SetVcoreUp h hw level fuel t = some t') (hle : fuel ≤ fuel') :
    SetVcoreUp h hw level fuel' t = some t' := by
  simp only [SetVcoreUp, Option.bind_eq_bind, Option.bind_eq_some, Option.pure_def,
    Option.some.injEq] at hp ⊢
  obtain ⟨t1, hp1, t2, hp2, e⟩ := hp
  exact ⟨t1, poll_mono hw _ fuel fuel' _ _ hp1 hle, t2,
    wait_level_reached_mono h hw fuel fuel' _ _ hp2 hle, e⟩

/-- The busy-waits of a call terminate exactly when the call returns for some
amount of fuel. -/
theorem call_polls_terminate_iff (h : Hdr) (hw : Hardware) (level : Nat) (t t' : Trace) :
    CallPollsTerminate h hw level t t' ↔ ∃ fuel, SetVcoreUp h hw level fuel t = some t' := by
  constructor
  · rintro ⟨f1, f2, t1, t2, h1, h2, rfl⟩
    refine ⟨max f1 f2, ?_⟩
    simp only [SetVcoreUp, Option.bind_eq_bind, Option.bind_eq_some, Option.pure_def,
      Option.some.injEq]
    exact ⟨t1, poll_mono hw _ f1 _ _ _ h1 (le_max_left _ _), t2,
      wait_level_reached_mono h hw f2 _ _ _ h2 (le_max_right _ _), rfl⟩
  · rintro ⟨fuel, hp⟩
    simp only [SetVcoreUp, Option.bind_eq_bind, Option.bind_eq_some, Option.pure_def,
      Option.some.injEq] at hp
    obtain ⟨t1, h1, t2, h2, e⟩ := hp
    exact ⟨fuel, fuel, t1, t2, h1, h2, e.symm⟩

/-- When `main` returns, its busy-waits have terminated. -/
theorem polls_terminate_of_main (h : Hdr) (hw : Hardware) (fuel rounds : Nat)
    (hm : (main h hw fuel rounds).isSome = true) : PollsTerminate h hw := by
  obtain ⟨t, ht⟩ := Option.isSome_iff_exists.1 hm
  simp only [main, Option.bind_eq_bind, Option.bind_eq_some, Option.pure_def,
    Option.some.injEq, reg_write, List.nil_append] at ht
  obtain ⟨t1, h1, t2, h2, t3, h3, _⟩ := ht
  exact ⟨t1, t2, t3, (call_polls_terminate_iff h hw 1 _ t1).2 ⟨fuel, h1⟩,
    (call_polls_terminate_iff h hw 2 _ t2).2 ⟨fuel, h2⟩,
    (call_polls_terminate_iff h hw 3 _ t3).2 ⟨fuel, h3⟩⟩

/-- When its busy-waits terminate, `main` returns for one amount of fuel,
whatever the number of LED rounds observed. -/
theorem main_of_polls_terminate (h : Hdr) (hw : Hardware) (hterm : PollsTerminate h hw) :
    ∃ fuel, ∀ rounds, ∃ t, main h hw fuel rounds = some t := by
  obtain ⟨t1, t2, t3, c1, c2, c3⟩ := hterm
  obtain ⟨f1, h1⟩ := (call_polls_terminate_iff h hw 1 _ t1).1 c1
  obtain ⟨f2, h2⟩ := (call_polls_terminate_iff h hw 2 _ t2).1 c2
  obtain ⟨f3, h3⟩ := (call_polls_terminate_iff h hw 3 _ t3).1 c3
  refine ⟨max f1 (max f2 f3), fun rounds => ?_⟩
  have m1 := SetVcoreUp_mono h hw 1 f1 (max f1 (max f2 f3)) _ _ h1 (by omega)
  have m2 := SetVcoreUp_mono h hw 2 f2 (max f1 (max f2 f3)) _ _ h2 (by omega)
  have m3 := SetVcoreUp_mono h hw 3 f3 (max f1 (max f2 f3)) _ _ h3 (by omega)
  simp only [main, Option.bind_eq_bind, Option.bind_eq_some, Option.pure_def,
    Option.some.injEq, reg_write, List.nil_append]
  exact ⟨_, ⟨t1, m1, t2, m2, t3, m3, rfl⟩⟩

/-- The accesses of lines 30-52: no core-voltage write; on the timeline only the
two status-register operations on `SCG0`. -/
theorem main_clock_spec (h : Hdr) (hw : Hardware) (t : Trace) :
    ∃ r : Trace, main_clock h hw t = t ++ r ∧ core_writes r = [] ∧
      timeline r = [.bis_SR h.SCG0, .bic_SR h.SCG0] := by
  apply Exists.intro
  refine ⟨?e, ?c, ?tl⟩
  case e =>
    simp only [main_clock, reg_write, reg_and, List.append_assoc, List.cons_append,
      List.nil_append]
    rfl
  case c => rfl
  case tl => rfl

/-- The accesses of lines 69-82: port registers only. -/
theorem main_pins_spec (h : Hdr) (hw : Hardware) (t : Trace) :
    ∃ r : Trace, main_pins h hw t = t ++ r ∧ core_writes r = [] ∧ timeline r = [] := by
  apply Exists.intro
  refine ⟨?e, ?c, ?tl⟩
  case e =>
    simp only [main_pins, reg_or, reg_and, List.append_assoc, List.cons_append,
      List.nil_append]
    rfl
  case c => rfl
  case tl => rfl

/-- The accesses of lines 85-115: seven writes to Timer_D0 registers, the first
one storing the halted configuration into `TD0CTL0`. -/
theorem main_timer_config_spec (h : Hdr) (hw : Hardware) (t : Trace) :
    ∃ (r : Trace) (v1 v2 : Nat), main_timer_config h hw t = t ++ r ∧ core_writes r = [] ∧
      timeline r =
        [.write .TD0CTL0 ((h.TDSSEL_2 + h.CNTL_0 + h.ID_0 + h.MC_0 + h.TDIE) % 65536),
         .write .TD0CTL1 ((v1 ||| h.TDCLKM_1) % 65536),
         .write .TD0CTL2 ((0 * h.TDCAPM0 + 0 * h.TDCAPM1) % 65536),
         .write .TD0HCTL0
           ((h.TDHFW + h.TDHD_0 + h.TDHM_1 + h.TDHREGEN + h.TDHEAEN + h.TDHEN) % 65536),
         .write .TD0HCTL1 ((v2 ||| h.TDHCLKCR) % 65536),
         .write .TD0CCTL0 ((0 * 0x1000 + 0x8000 + h.OUTMOD_7 + 0x0100 + 0x0010) % 65536),
         .write .TD0CCTL1 ((0 * 0x1000 + 0x8000 + h.OUTMOD_7 + 0x0100 + 0x0010) % 65536)] := by
  apply Exists.intro
  apply Exists.intro
  apply Exists.intro
  refine ⟨?e, ?c, ?tl⟩
  case e =>
    simp only [main_timer_config, reg_or, reg_write, List.append_assoc, List.cons_append,
      List.nil_append]
    rfl
  case c => rfl
  case tl => rfl

/-- The accesses of lines 117-118. -/
theorem main_start_spec (h : Hdr) (hw : Hardware) (t : Trace) :
    ∃ v : Nat, main_start h hw t =
      t ++ [.read .TD0CTL0 v, .write .TD0CTL0 ((v ||| (h.TDCLR + h.MC_2)) % 65536),
        .bis_SR h.GIE] :=
  ⟨reg_read hw .TD0CTL0 t, by simp [main_start, reg_or]⟩

/-- The accesses of line 132, `P1DIR |= 0x01;`. -/
theorem reg_or_P1DIR_spec (hw : Hardware) (x : Nat) (t : Trace) :
    ∃ r : Trace, reg_or hw .P1DIR x t = t ++ r ∧ core_writes r = [] ∧ timeline r = [] :=
  ⟨_, rfl, rfl, rfl⟩

/-- The accesses of the LED loop: port register and delays only. -/
theorem main_led_loop_spec (hw : Hardware) (n : Nat) (t : Trace) :
    ∃ r : Trace, main_led_loop hw n t = t ++ r ∧ core_writes r = [] ∧ timeline r = [] := by
  induction n generalizing t with
  | zero => exact ⟨[], by simp [main_led_loop], rfl, rfl⟩
  | succ n ih =>
    obtain ⟨r, e, hc, ht⟩ := ih (reg_xor hw .P1OUT 0x01 t ++ [.delay_cycles (2 * 1000000)])
    refine ⟨[.read .P1OUT (reg_read hw .P1OUT t),
      .write .P1OUT ((reg_read hw .P1OUT t ^^^ 0x01) % 65536),
      .delay_cycles (2 * 1000000)] ++ r, ?_, ?_, ?_⟩
    · rw [main_led_loop, e]; simp [reg_xor]
    · rw [core_writes_append, hc]; rfl
    · rw [timeline_append, ht]; rfl

/-- The shape of every trace of `main`: the watchdog write, the three
`SetVcoreUp` calls for levels 1, 2, 3, the configuration up to line 115, the
three accesses of lines 117-118, and the rest. -/
theorem main_spec (h : Hdr) (hw : Hardware) (fuel rounds : Nat) (t : Trace)
    (hm : main h hw fuel rounds = some t) :
    ∃ (seg1 seg2 seg3 mid post : Trace) (v1 v2 v : Nat),
      SetVcoreUp h hw 1 fuel [.write .WDTCTL ((h.WDTPW ||| h.WDTHOLD) % 65536)] =
        some ([.write .WDTCTL ((h.WDTPW ||| h.WDTHOLD) % 65536)] ++ seg1) ∧
      SetVcoreUp h hw 2 fuel ([.write .WDTCTL ((h.WDTPW ||| h.WDTHOLD) % 65536)] ++ seg1) =
        some ([.write .WDTCTL ((h.WDTPW ||| h.WDTHOLD) % 65536)] ++ seg1 ++ seg2) ∧
      SetVcoreUp h hw 3 fuel
          ([.write .WDTCTL ((h.WDTPW ||| h.WDTHOLD) % 65536)] ++ seg1 ++ seg2) =
        some ([.write .WDTCTL ((h.WDTPW ||| h.WDTHOLD) % 65536)] ++ seg1 ++ seg2 ++ seg3) ∧
      (SettledCoreWrite h 1 seg1 ∧ SettledCoreWrite h 2 seg2 ∧ SettledCoreWrite h 3 seg3) ∧
      (timeline seg1 = [] ∧ timeline seg2 = [] ∧ timeline seg3 = []) ∧
      (core_writes seg1 = [(h.PMMCOREV0 * 1) % 65536] ∧
        core_writes seg2 = [(h.PMMCOREV0 * 2) % 65536] ∧
        core_writes seg3 = [(h.PMMCOREV0 * 3) % 65536]) ∧
      t = ([.write .WDTCTL ((h.WDTPW ||| h.WDTHOLD) % 65536)] ++ seg1 ++ seg2 ++ seg3 ++ mid) ++
        [.read .TD0CTL0 v, .write .TD0CTL0 ((v ||| (h.TDCLR + h.MC_2)) % 65536),
          .bis_SR h.GIE] ++ post ∧
      core_writes mid = [] ∧ core_writes post = [] ∧ timeline post = [] ∧
      timeline mid =
        [.bis_SR h.SCG0, .bic_SR h.SCG0,
         .write .TD0CTL0 ((h.TDSSEL_2 + h.CNTL_0 + h.ID_0 + h.MC_0 + h.TDIE) % 65536),
         .write .TD0CTL1 ((v1 ||| h.TDCLKM_1) % 65536),
         .write .TD0CTL2 ((0 * h.TDCAPM0 + 0 * h.TDCAPM1) % 65536),
         .write .TD0HCTL0
           ((h.TDHFW + h.TDHD_0 + h.TDHM_1 + h.TDHREGEN + h.TDHEAEN + h.TDHEN) % 65536),
         .write .TD0HCTL1 ((v2 ||| h.TDHCLKCR) % 65536),
         .write .TD0CCTL0 ((0 * 0x1000 + 0x8000 + h.OUTMOD_7 + 0x0100 + 0x0010) % 65536),
         .write .TD0CCTL1 ((0 * 0x1000 + 0x8000 + h.OUTMOD_7 + 0x0100 + 0x0010) % 65536)] := by
  simp only [main, Option.bind_eq_bind, Option.bind_eq_some, Option.pure_def,
    Option.some.injEq, reg_write, List.nil_append] at hm
  obtain ⟨t1, h1, t2, h2, t3, h3, rfl⟩ := hm
  obtain ⟨seg1, rfl, s1, tl1, c1⟩ := SetVcoreUp_spec h hw _ fuel _ _ h1
  obtain ⟨seg2, rfl, s2, tl2, c2⟩ := SetVcoreUp_spec h hw _ fuel _ _ h2
  obtain ⟨seg3, rfl, s3, tl3, c3⟩ := SetVcoreUp_spec h hw _ fuel _ _ h3
  obtain ⟨rc, ec, cc, tc⟩ := main_clock_spec h hw
    ([.write .WDTCTL ((h.WDTPW ||| h.WDTHOLD) % 65536)] ++ seg1 ++ seg2 ++ seg3)
  rw [ec]
  obtain ⟨rp, ep, cp, tp⟩ := main_pins_spec h hw
    ([.write .WDTCTL ((h.WDTPW ||| h.WDTHOLD) % 65536)] ++ seg1 ++ seg2 ++ seg3 ++ rc)
  rw [ep]
  obtain ⟨rt, v1, v2, et, ct, tt⟩ := main_timer_config_spec h hw
    ([.write .WDTCTL ((h.WDTPW ||| h.WDTHOLD) % 65536)] ++ seg1 ++ seg2 ++ seg3 ++ rc ++ rp)
  rw [et]
  obtain ⟨v, es⟩ := main_start_spec h hw
    ([.write .WDTCTL ((h.WDTPW ||| h.WDTHOLD) % 65536)] ++ seg1 ++ seg2 ++ seg3 ++ rc ++ rp ++
      rt)
  rw [es]
  obtain ⟨rd, ed, cd, td⟩ := reg_or_P1DIR_spec hw 0x01
    ([.write .WDTCTL ((h.WDTPW ||| h.WDTHOLD) % 65536)] ++ seg1 ++ seg2 ++ seg3 ++ rc ++ rp ++
      rt ++ [.read .TD0CTL0 v, .write .TD0CTL0 ((v ||| (h.TDCLR + h.MC_2)) % 65536),
        .bis_SR h.GIE])
  rw [ed]
  obtain ⟨rl, el, cl, tl⟩ := main_led_loop_spec hw rounds
    ([.write .WDTCTL ((h.WDTPW ||| h.WDTHOLD) % 65536)] ++ seg1 ++ seg2 ++ seg3 ++ rc ++ rp ++
      rt ++ [.read .TD0CTL0 v, .write .TD0CTL0 ((v ||| (h.TDCLR + h.MC_2)) % 65536),
        .bis_SR h.GIE] ++ rd)
  rw [el]
  refine ⟨seg1, seg2, seg3, rc ++ rp ++ rt, rd ++ rl, v1, v2, v, h1, h2, h3, ⟨s1, s2, s3⟩,
    ⟨tl1, tl2, tl3⟩, ⟨c1, c2, c3⟩, ?_, ?_, ?_, ?_, ?_⟩
  · simp only [List.append_assoc]
  · simp only [core_writes_append, cc, cp, ct, List.append_nil]
  · simp only [core_writes_append, cd, cl, List.append_nil]
  · simp only [timeline_append, td, tl, List.append_nil]
  · simp only [timeline_append, tc, tp, tt, List.append_nil]
    rfl

/-- C10: for every simulated hardware, the busy-waits that `main` executes
terminate exactly when `main` gets through its three `SetVcoreUp` calls for
some amount of fuel; and in every trace of `main`, on any hardware, the
core-voltage selector writes are exactly `PMMCOREV0 * 1`, `* 2`, `* 3` in that
order: the trace is the watchdog write followed by the accesses of the calls
for levels 1, 2, 3 and a rest without core-voltage write, and in each call
the single core-voltage write comes after a `PMMIFG` read of the same call in
which `SVSMLDLYIFG` was set. -/
theorem C10_bringup_sequencing (h : Hdr) (hw : Hardware) :
    (PollsTerminate h hw ↔ ∃ fuel, ∀ rounds, ∃ t, main h hw fuel rounds = some t) ∧
    (∀ fuel rounds t, main h hw fuel rounds = some t →
      core_writes t =
        [(h.PMMCOREV0 * 1) % 65536, (h.PMMCOREV0 * 2) % 65536, (h.PMMCOREV0 * 3) % 65536] ∧
      ∃ seg1 seg2 seg3 rest : Trace,
        t = [.write .WDTCTL ((h.WDTPW ||| h.WDTHOLD) % 65536)] ++ seg1 ++ seg2 ++ seg3 ++ rest ∧
        SetVcoreUp h hw 1 fuel [.write .WDTCTL ((h.WDTPW ||| h.WDTHOLD) % 65536)] =
          some ([.write .WDTCTL ((h.WDTPW ||| h.WDTHOLD) % 65536)] ++ seg1) ∧
        SetVcoreUp h hw 2 fuel ([.write .WDTCTL ((h.WDTPW ||| h.WDTHOLD) % 65536)] ++ seg1) =
          some ([.write .WDTCTL ((h.WDTPW ||| h.WDTHOLD) % 65536)] ++ seg1 ++ seg2) ∧
        SetVcoreUp h hw 3 fuel
            ([.write .WDTCTL ((h.WDTPW ||| h.WDTHOLD) % 65536)] ++ seg1 ++ seg2) =
          some ([.write .WDTCTL ((h.WDTPW ||| h.WDTHOLD) % 65536)] ++ seg1 ++ seg2 ++ seg3) ∧
        SettledCoreWrite h 1 seg1 ∧ SettledCoreWrite h 2 seg2 ∧ SettledCoreWrite h 3 seg3 ∧
        core_writes rest = []) := by
  constructor
  · constructor
    · exact main_of_polls_terminate h hw
    · rintro ⟨fuel, hf⟩
      obtain ⟨t, ht⟩ := hf 0
      exact polls_terminate_of_main h hw fuel 0 (by rw [ht]; rfl)
  · intro fuel rounds t hm
    obtain ⟨seg1, seg2, seg3, mid, post, v1, v2, v, h1, h2, h3, ⟨s1, s2, s3⟩, _,
      ⟨c1, c2, c3⟩, et, cm, cp, _, _⟩ := main_spec h hw fuel rounds t hm
    constructor
    · rw [et]
      simp only [core_writes_append, c1, c2, c3, cm, cp, List.append_nil]
      rfl
    · refine ⟨seg1, seg2, seg3,
        mid ++ [.read .TD0CTL0 v, .write .TD0CTL0 ((v ||| (h.TDCLR + h.MC_2)) % 65536),
          .bis_SR h.GIE] ++ post, ?_, h1, h2, h3, s1, s2, s3, ?_⟩
      · rw [et]; simp only [List.append_assoc]
      · simp only [core_writes_append, cm, cp, List.append_nil]
        rfl

/-- Witness of C10: on the hardware `hw_slow_settle`, where the settle flag
shows only at the second read and `SVMLVLRIFG` never shows, the busy-waits of
`main` terminate, `main` returns, and its core-voltage writes are 1, 2, 3. -/
theorem C10_bringup_sequencing_witness :
    PollsTerminate f5172 (hw_slow_settle f5172) ∧
    (∃ fuel, ∀ rounds, ∃ t, main f5172 (hw_slow_settle f5172) fuel rounds = some t) ∧
    core_writes ((main f5172 (hw_slow_settle f5172) 2 0).getD []) =
      [(f5172.PMMCOREV0 * 1) % 65536, (f5172.PMMCOREV0 * 2) % 65536,
        (f5172.PMMCOREV0 * 3) % 65536] :=
  ⟨polls_terminate_of_main f5172 (hw_slow_settle f5172) 2 0 (by decide),
    (C10_bringup_sequencing f5172 (hw_slow_settle f5172)).1.1
      (polls_terminate_of_main f5172 (hw_slow_settle f5172) 2 0 (by decide)),
    ((C10_bringup_sequencing f5172 (hw_slow_settle f5172)).2 2 0
      ((main f5172 (hw_slow_settle f5172) 2 0).getD []) (by decide)).1⟩

theorem counter_running_snoc (h : Hdr) (l : Trace) (a : Access) :
    counter_running h (l ++ [a]) =
      match a with
      | .write .TD0CTL0 v => decide (v &&& h.MC_3 ≠ h.MC_0)
      | _ => counter_running h l := by
  simp only [counter_running, List.foldl_append, List.foldl_cons, List.foldl_nil]

theorem gie_enabled_snoc (h : Hdr) (l : Trace) (a : Access) :
    gie_enabled h (l ++ [a]) =
      match a with
      | .bis_SR v => if v &&& h.GIE ≠ 0 then true else gie_enabled h l
      | .bic_SR v => if v &&& h.GIE ≠ 0 then false else gie_enabled h l
      | _ => gie_enabled h l := by
  simp only [gie_enabled, List.foldl_append, List.foldl_cons, List.foldl_nil]

/-- If every value written to `TD0CTL0` has its mode field at stop, the
counter is halted. -/
theorem counter_running_halted (h : Hdr) (l : Trace)
    (hl : ∀ v, Access.write .TD0CTL0 v ∈ l → v &&& h.MC_3 = h.MC_0) :
    counter_running h l = false := by
  induction l using List.reverseRecOn with
  | nil => rfl
  | append_singleton xs a ih =>
    have ih' := ih (fun v hv => hl v (List.mem_append_left _ hv))
    rw [counter_running_snoc]
    split
    · rename_i v
      have := hl v (by simp)
      simp [this]
    · exact ih'

/-- If no `__bis_SR_register` operand contains `GIE`, `GIE` is clear. -/
theorem gie_enabled_clear (h : Hdr) (l : Trace)
    (hl : ∀ v, Access.bis_SR v ∈ l → v &&& h.GIE = 0) :
    gie_enabled h l = false := by
  induction l using List.reverseRecOn with
  | nil => rfl
  | append_singleton xs a ih =>
    have ih' := ih (fun v hv => hl v (List.mem_append_left _ hv))
    rw [gie_enabled_snoc]
    split
    · rename_i v
      have := hl v (by simp)
      simp [this, ih']
    · rename_i v
      simp [ih']
    · exact ih'

theorem mem_timeline (t : Trace) (a : Access) (ha : a ∈ t)
    (hk : (a.isTimerWrite || a.isStatusOp) = true) : a ∈ timeline t := by
  simp only [timeline, List.mem_filter]
  exact ⟨ha, hk⟩

/-- C9 as stated fails: on the simulated hardware `hw_ready`, after the first
72 accesses of `main` (up to and including the write of line 117) the counter
is in continuous mode while `GIE` is still clear; `GIE` is set by the next
access (line 118). -/
theorem C9_counterexample :
    (main f5172 hw_ready 1 0).map (fun t =>
      (t.take 72 |>.getLast?, counter_running f5172 (t.take 72), gie_enabled f5172 (t.take 72),
        t.take 73 |>.getLast?, gie_enabled f5172 (t.take 73))) =
      some (some (.write .TD0CTL0 550), true, false, some (.bis_SR 8), true) := by
  decide

/-- C9 (amended): in every trace of `main`, the write of line 117
(`TD0CTL0 |= TDCLR + MC_2`) is the last write to a Timer_D0 register and is
immediately followed by the access that sets `GIE` (line 118), the last
status-register operation.  At every point before the write the counter is
halted and `GIE` is clear; right after the write `GIE` is still clear, and
the counter runs if the written mode field is not stop. -/
theorem C9_counter_started_before_GIE (h : Hdr) (hw : Hardware) (fuel rounds : Nat)
    (t : Trace) (hm : main h hw fuel rounds = some t)
    (hhalt : ((h.TDSSEL_2 + h.CNTL_0 + h.ID_0 + h.MC_0 + h.TDIE) % 65536) &&& h.MC_3 = h.MC_0)
    (hscg : h.SCG0 &&& h.GIE = 0) :
    ∃ (pre post : Trace) (v : Nat),
      t = pre ++ [.read .TD0CTL0 v, .write .TD0CTL0 ((v ||| (h.TDCLR + h.MC_2)) % 65536),
        .bis_SR h.GIE] ++ post ∧
      timeline post = [] ∧
      (∀ k, k ≤ pre.length + 1 →
        counter_running h (t.take k) = false ∧ gie_enabled h (t.take k) = false) ∧
      gie_enabled h (t.take (pre.length + 2)) = false ∧
      counter_running h (t.take (pre.length + 2)) =
        decide (((v ||| (h.TDCLR + h.MC_2)) % 65536) &&& h.MC_3 ≠ h.MC_0) := by
  obtain ⟨seg1, seg2, seg3, mid, post, v1, v2, v, _, _, _, _, ⟨tl1, tl2, tl3⟩, _, et, _, _,
    tp, tm⟩ := main_spec h hw fuel rounds t hm
  have htl : timeline ([.write .WDTCTL ((h.WDTPW ||| h.WDTHOLD) % 65536)] ++ seg1 ++ seg2 ++
      seg3 ++ mid ++ [.read .TD0CTL0 v]) = timeline mid := by
    have a1 : timeline [.write .WDTCTL ((h.WDTPW ||| h.WDTHOLD) % 65536)] = [] := rfl
    have a2 : timeline [.read .TD0CTL0 v] = [] := rfl
    simp only [timeline_append, tl1, tl2, tl3, a1, a2, List.append_nil, List.nil_append]
  have hrun : ∀ x, Access.write .TD0CTL0 x ∈
      [.write .WDTCTL ((h.WDTPW ||| h.WDTHOLD) % 65536)] ++ seg1 ++ seg2 ++ seg3 ++ mid ++
        [.read .TD0CTL0 v] → x &&& h.MC_3 = h.MC_0 := by
    intro x hx
    have := mem_timeline _ _ hx rfl
    rw [htl, tm] at this
    simp at this
    rw [this]; exact hhalt
  have hgie : ∀ x, Access.bis_SR x ∈
      [.write .WDTCTL ((h.WDTPW ||| h.WDTHOLD) % 65536)] ++ seg1 ++ seg2 ++ seg3 ++ mid ++
        [.read .TD0CTL0 v] → x &&& h.GIE = 0 := by
    intro x hx
    have := mem_timeline _ _ hx rfl
    rw [htl, tm] at this
    simp at this
    rw [this]; exact hscg
  have split1 : t =
      ([Access.write .WDTCTL ((h.WDTPW ||| h.WDTHOLD) % 65536)] ++ seg1 ++ seg2 ++ seg3 ++ mid ++
        [.read .TD0CTL0 v]) ++
      ([.write .TD0CTL0 ((v ||| (h.TDCLR + h.MC_2)) % 65536), .bis_SR h.GIE] ++ post) := by
    rw [et]; simp only [List.append_assoc, List.cons_append, List.nil_append]
  have split2 : t =
      (([Access.write .WDTCTL ((h.WDTPW ||| h.WDTHOLD) % 65536)] ++ seg1 ++ seg2 ++ seg3 ++ mid ++
        [.read .TD0CTL0 v]) ++ [.write .TD0CTL0 ((v ||| (h.TDCLR + h.MC_2)) % 65536)]) ++
      ([.bis_SR h.GIE] ++ post) := by
    rw [et]; simp only [List.append_assoc, List.cons_append, List.nil_append]
  have e2 : t.take (([Access.write .WDTCTL ((h.WDTPW ||| h.WDTHOLD) % 65536)] ++ seg1 ++ seg2 ++
      seg3 ++ mid).length + 2) =
      ([Access.write .WDTCTL ((h.WDTPW ||| h.WDTHOLD) % 65536)] ++ seg1 ++ seg2 ++ seg3 ++ mid ++
        [.read .TD0CTL0 v]) ++ [.write .TD0CTL0 ((v ||| (h.TDCLR + h.MC_2)) % 65536)] := by
    rw [split2]
    exact List.take_left' (by simp only [List.length_append, List.length_singleton])
  refine ⟨[.write .WDTCTL ((h.WDTPW ||| h.WDTHOLD) % 65536)] ++ seg1 ++ seg2 ++ seg3 ++ mid,
    post, v, et, tp, ?_, ?_, ?_⟩
  · intro k hk
    have e1 : t.take k =
        ([Access.write .WDTCTL ((h.WDTPW ||| h.WDTHOLD) % 65536)] ++ seg1 ++ seg2 ++ seg3 ++
          mid ++ [Access.read .TD0CTL0 v]).take k := by
      rw [split1]
      refine List.take_append_of_le_length ?_
      simp only [List.length_append, List.length_singleton] at hk ⊢
      omega
    rw [e1]
    exact ⟨counter_running_halted h _ (fun x hx => hrun x (List.mem_of_mem_take hx)),
      gie_enabled_clear h _ (fun x hx => hgie x (List.mem_of_mem_take hx))⟩
  · rw [e2, gie_enabled_snoc]
    exact gie_enabled_clear h _ hgie
  · rw [e2, counter_running_snoc]

/-- Witness of C9 (amended): the header `f5172` on the hardware `hw_ready`. -/
theorem C9_counter_started_before_GIE_witness :
    ∃ (pre : Trace) (v : Nat),
      gie_enabled f5172 (((main f5172 hw_ready 1 0).getD []).take (pre.length + 2)) = false ∧
      counter_running f5172 (((main f5172 hw_ready 1 0).getD []).take (pre.length + 2)) =
        decide (((v ||| (f5172.TDCLR + f5172.MC_2)) % 65536) &&& f5172.MC_3 ≠ f5172.MC_0) := by
  obtain ⟨pre, post, v, _, _, _, hg, hc⟩ :=
    C9_counter_started_before_GIE f5172 hw_ready 1 0 ((main f5172 hw_ready 1 0).getD [])
      (by decide) (by decide) (by decide)
  exact ⟨pre, v, hg, hc⟩

end Msp430Time
